import Mathlib

/-!
Google Shoreline MIPI-DSI panel driver

A shallow embedding of `display/panel-google-shoreline.c` and the properties
of it that the panel-control specification states.

Conventions of the embedding

* C unsigned integers are `Nat`; a value stored in a `u8` or `u32` object goes
  through `u8` / `u32` (reduction modulo `2 ^ 8` / `2 ^ 32`).
* The per-device context `struct exynos_panel` (with the `shoreline_panel`
  extension folded in) is passed explicitly and returned by every operation.
* Everything the driver hands to the bus or to the panel framework is appended
  to `exynos_panel.log`, oldest first.
* Names that come from headers outside this file (DCS opcodes,
  `drm_mode_vrefresh`) are fields of the parameter `Kernel`.
-/

namespace Shoreline

/-! ## Machine integers -/

/-- Value of an expression stored in a `u8` object. -/
def u8 (x : Nat) : Nat := x % 2 ^ 8

/-- Value of an expression stored in a `u32` object. -/
def u32 (x : Nat) : Nat := x % 2 ^ 32

/-- The C expression `a - b` on two `u32` operands: subtraction modulo `2 ^ 32`. -/
def u32_sub (a b : Nat) : Nat := (u32 a + 2 ^ 32 - u32 b) % 2 ^ 32

/-! ## TE2 timing encoder -/

/-- The two fields of `struct exynos_panel_te2_timing` that the driver reads. -/
structure exynos_panel_te2_timing where
  rising_edge : Nat
  falling_edge : Nat
  deriving DecidableEq, Repr

/-- Embedding of `shoreline_get_te2_setting` (lines 194 to 215).  A pointer argument is an
`Option` (`none` is `NULL`); the result is the content of the `setting` buffer
when the function returns.  The function is `void`: it has no error result. -/
def shoreline_get_te2_setting (timing : Option exynos_panel_te2_timing)
    (setting : Option (List Nat)) : Option (List Nat) :=
  match timing, setting with
  | some timing, some setting =>
    let rising := u32 timing.rising_edge
    let falling := u32 timing.falling_edge
    let delay_low_byte := u8 (rising &&& 0xFF)
    let delay_high_byte := u8 ((rising >>> 8) &&& 0xF)
    let width_low_byte := u8 (u32_sub falling rising &&& 0xFF)
    let width_high_byte := u8 ((u32_sub falling rising >>> 8) &&& 0xF)
    let setting := setting.set 0 (u8 ((delay_high_byte <<< 4) ||| width_high_byte))
    let setting := setting.set 1 delay_low_byte
    let setting := setting.set 2 width_low_byte
    some setting
  | _, setting => setting

/-! ## Transport and log -/

/-- Error numbers that appear in the driver and at its transport. -/
inductive Errno
  | EINVAL
  | EAGAIN
  | EIO
  deriving DecidableEq, Repr

deriving instance DecidableEq for Except

/-- Modelled from the spec: the transport of §6 answers a transfer with
`Result<(), IoError>` (write) or `Result<bytes, IoError>` (read).  `ok rx` is a
transfer that went through, `rx` being the bytes a read received (a write does
not look at them); `io_error` is the `IoError`. -/
inductive dsi_reply
  | ok (rx : List Nat)
  | io_error
  deriving DecidableEq, Repr

/-- One entry of the log: a call the driver makes on the bus or on the panel
framework that is not part of this file. -/
inductive panel_event
  /-- A call `exynos_dcs_write(ctx, data, len)`, also through `EXYNOS_DCS_WRITE_SEQ` and
  `EXYNOS_DCS_WRITE_TABLE` -/
  | write (data : List Nat)
  /-- A call `mipi_dsi_dcs_read(dsi, cmd, buf, len)` -/
  | read (cmd len : Nat)
  /-- The delay that follows an entry of a command set, in milliseconds -/
  | delay_ms (ms : Nat)
  /-- A call `usleep_range(min, max)` -/
  | usleep_range (min max : Nat)
  /-- A call `exynos_panel_reset(ctx)` -/
  | reset
  /-- A call `exynos_dcs_compression_mode(ctx, v)` -/
  | compression_mode (v : Nat)
  /-- The statement `EXYNOS_PPS_LONG_WRITE(ctx)` with the parameter set it transmits -/
  | pps_long_write (pps : List Nat)
  /-- A call `exynos_panel_set_lp_mode(ctx, pmode)` -/
  | set_lp_mode
  deriving DecidableEq, Repr

/-! ## Data model -/

/-- The fields of `struct drm_display_mode` that the mode tables of the driver set. -/
structure drm_display_mode where
  clock : Nat
  hdisplay : Nat
  hsync_start : Nat
  hsync_end : Nat
  htotal : Nat
  vdisplay : Nat
  vsync_start : Nat
  vsync_end : Nat
  vtotal : Nat
  flags : Nat
  width_mm : Nat
  height_mm : Nat
  deriving DecidableEq, Repr

/-- The field of `struct exynos_display_mode` that the driver reads. -/
structure exynos_display_mode where
  is_lp_mode : Bool
  deriving DecidableEq, Repr

/-- Embedding of `struct exynos_panel_mode`. -/
structure exynos_panel_mode where
  mode : drm_display_mode
  exynos_mode : exynos_display_mode
  te2_timing : exynos_panel_te2_timing
  deriving DecidableEq, Repr

/-- Modelled from the spec: `enum exynos_hbm_mode` is declared in the panel
header, which is not part of this file.  The spec (§4.5, high-brightness toggle) gives
it an on/off aspect and an IRC aspect: off, on with IRC on, on with IRC off.
`HBM_OFF` is the zero value that `if (mode)` tests. -/
inductive exynos_hbm_mode
  | HBM_OFF
  | HBM_ON_IRC_ON
  | HBM_ON_IRC_OFF
  deriving DecidableEq, Repr

/-- Modelled from the spec: the header macro `IS_HBM_ON`, the on/off aspect of
the high-brightness mode. -/
def IS_HBM_ON : exynos_hbm_mode → Bool
  | .HBM_OFF => false
  | .HBM_ON_IRC_ON => true
  | .HBM_ON_IRC_OFF => true

/-- Modelled from the spec: the header macro `IS_HBM_ON_IRC_OFF`, the IRC
aspect of the high-brightness mode. -/
def IS_HBM_ON_IRC_OFF : exynos_hbm_mode → Bool
  | .HBM_OFF => false
  | .HBM_ON_IRC_ON => false
  | .HBM_ON_IRC_OFF => true

/-- The constant `LHBM_GAMMA_CMD_SIZE` (line 119). -/
def LHBM_GAMMA_CMD_SIZE : Nat := 6

/-- Embedding of `struct exynos_panel` together with the `struct shoreline_panel`
that contains it: the fields the driver reads or writes, the DSI device
(`dsi n` is the reply of the bus to the transfer made when the log holds `n`
entries) and the log. -/
structure exynos_panel where
  enabled : Bool
  current_mode : Option exynos_panel_mode
  op_hz : Nat
  hbm_mode : exynos_hbm_mode
  /-- The field `ctx->hbm.local_hbm.enabled` -/
  local_hbm_enabled : Bool
  dimming_on : Bool
  panel_rev : Nat
  /-- The field `ctx->te2.mode_data[i].timing` -/
  te2_mode_data : Nat → exynos_panel_te2_timing
  /-- The buffer `spanel->local_hbm_gamma.hs_cmd` -/
  hs_cmd : List Nat
  /-- The buffer `spanel->local_hbm_gamma.ns_cmd` -/
  ns_cmd : List Nat
  dsi : Nat → dsi_reply
  log : List panel_event

/-- What the headers outside this file supply: the DCS opcodes of
`video/mipi_display.h`, `drm_mode_vrefresh` and
`exynos_panel_get_current_mode_te2`.  Every theorem holds for all values of
these. -/
structure Kernel where
  MIPI_DCS_ENTER_SLEEP_MODE : Nat
  MIPI_DCS_EXIT_SLEEP_MODE : Nat
  MIPI_DCS_SET_DISPLAY_OFF : Nat
  MIPI_DCS_SET_DISPLAY_ON : Nat
  MIPI_DCS_SET_COLUMN_ADDRESS : Nat
  MIPI_DCS_SET_PAGE_ADDRESS : Nat
  MIPI_DCS_SET_TEAR_ON : Nat
  MIPI_DCS_WRITE_CONTROL_DISPLAY : Nat
  drm_mode_vrefresh : drm_display_mode → Nat
  exynos_panel_get_current_mode_te2 : exynos_panel → Except Errno exynos_panel_te2_timing

/-! ## Constant tables (lines 15 to 117) -/

/-- The table `PPS_SETTING` (lines 15 to 32). -/
def PPS_SETTING : List Nat := [
  0x11, 0x00, 0x00, 0x89, 0x30, 0x80, 0x09, 0x60,
  0x04, 0x38, 0x00, 0x30, 0x02, 0x1C, 0x02, 0x1C,
  0x02, 0x00, 0x02, 0x0E, 0x00, 0x20, 0x04, 0xA6,
  0x00, 0x07, 0x00, 0x0C, 0x02, 0x0B, 0x02, 0x1F,
  0x18, 0x00, 0x10, 0xF0, 0x03, 0x0C, 0x20, 0x00,
  0x06, 0x0B, 0x0B, 0x33, 0x0E, 0x1C, 0x2A, 0x38,
  0x46, 0x54, 0x62, 0x69, 0x70, 0x77, 0x79, 0x7B,
  0x7D, 0x7E, 0x01, 0x02, 0x01, 0x00, 0x09, 0x40,
  0x09, 0xBE, 0x19, 0xFC, 0x19, 0xFA, 0x19, 0xF8,
  0x1A, 0x38, 0x1A, 0x78, 0x1A, 0xB6, 0x2A, 0xF6,
  0x2B, 0x34, 0x2B, 0x74, 0x3B, 0x74, 0x6B, 0xF4,
  0x00, 0x00, 0x00, 0x00, 0x00, 0x00, 0x00, 0x00,
  0x00, 0x00, 0x00, 0x00, 0x00, 0x00, 0x00, 0x00,
  0x00, 0x00, 0x00, 0x00, 0x00, 0x00, 0x00, 0x00,
  0x00, 0x00, 0x00, 0x00, 0x00, 0x00, 0x00, 0x00,
  0x00, 0x00, 0x00, 0x00, 0x00, 0x00, 0x00, 0x00]

/-- The masks of the control byte (lines 34 to 37). -/
def SHORELINE_WRCTRLD_DIMMING_BIT : Nat := 0x08
def SHORELINE_WRCTRLD_BCTRL_BIT : Nat := 0x20
def SHORELINE_WRCTRLD_HBM_BIT : Nat := 0xC0
def SHORELINE_WRCTRLD_LOCAL_HBM_BIT : Nat := 0x10

/-- The unlock write of the protected registers (line 39). -/
def test_key_on_f0 : List Nat := [0xF0, 0x5A, 0x5A]
/-- The lock write of the protected registers (line 40). -/
def test_key_off_f0 : List Nat := [0xF0, 0xA5, 0xA5]
/-- The frequency-update strobe (line 41). -/
def freq_update : List Nat := [0xF7, 0x0F]

/-- Modelled from the spec: `struct exynos_dsi_cmd`, an entry of a command
sequence, "{opcode, payload bytes, optional delay_ms}" (§4.1).  `cmd` holds the
opcode followed by the payload. -/
structure exynos_dsi_cmd where
  cmd : List Nat
  delay_ms : Nat
  deriving DecidableEq, Repr

/-- Modelled from the spec: the header macro `EXYNOS_DSI_CMD_SEQ`, an entry without delay. -/
def EXYNOS_DSI_CMD_SEQ (seq : List Nat) : exynos_dsi_cmd := ⟨seq, 0⟩

/-- Modelled from the spec: the header macro `EXYNOS_DSI_CMD_SEQ_DELAY`, an
entry followed by a delay. -/
def EXYNOS_DSI_CMD_SEQ_DELAY (delay : Nat) (seq : List Nat) : exynos_dsi_cmd :=
  ⟨seq, delay⟩

/-- Modelled from the spec: the header macro `EXYNOS_DSI_CMD0`, an entry made
of a byte table, without delay. -/
def EXYNOS_DSI_CMD0 (data : List Nat) : exynos_dsi_cmd := ⟨data, 0⟩

/-- The table `shoreline_init_cmds` (lines 75 to 84). -/
def shoreline_init_cmds (k : Kernel) : List exynos_dsi_cmd := [
  EXYNOS_DSI_CMD_SEQ_DELAY 120 [k.MIPI_DCS_EXIT_SLEEP_MODE],
  EXYNOS_DSI_CMD_SEQ [k.MIPI_DCS_SET_TEAR_ON],
  EXYNOS_DSI_CMD_SEQ [k.MIPI_DCS_SET_COLUMN_ADDRESS, 0x00, 0x00, 0x04, 0x37],
  EXYNOS_DSI_CMD_SEQ [k.MIPI_DCS_SET_PAGE_ADDRESS, 0x00, 0x00, 0x09, 0x5F],
  EXYNOS_DSI_CMD_SEQ [0x60, 0x08, 0x00],
  EXYNOS_DSI_CMD0 freq_update]

/-- The table `shoreline_lhbm_location_cmds` (lines 87 to 98). -/
def shoreline_lhbm_location_cmds : List exynos_dsi_cmd := [
  EXYNOS_DSI_CMD0 test_key_on_f0,
  EXYNOS_DSI_CMD_SEQ [0xB0, 0x00, 0x09, 0x6D],
  EXYNOS_DSI_CMD_SEQ [0x6D, 0xC7, 0x4C, 0x65],
  EXYNOS_DSI_CMD_SEQ [0x68, 0xC4, 0xB0, 0xFF],
  EXYNOS_DSI_CMD0 test_key_off_f0]

/-- The table `shoreline_mode_ns_60_cmds` (lines 101 to 104). -/
def shoreline_mode_ns_60_cmds : List exynos_dsi_cmd := [
  EXYNOS_DSI_CMD_SEQ [0x60, 0x18, 0x00],
  EXYNOS_DSI_CMD0 freq_update]

/-- The table `shoreline_mode_hs_60_cmds` (lines 107 to 110). -/
def shoreline_mode_hs_60_cmds : List exynos_dsi_cmd := [
  EXYNOS_DSI_CMD_SEQ [0x60, 0x08, 0x00],
  EXYNOS_DSI_CMD0 freq_update]

/-- The table `shoreline_mode_hs_120_cmds` (lines 113 to 116). -/
def shoreline_mode_hs_120_cmds : List exynos_dsi_cmd := [
  EXYNOS_DSI_CMD_SEQ [0x60, 0x08, 0x00],
  EXYNOS_DSI_CMD0 freq_update]

/-! ## Framework primitives the driver calls -/

/-- Appends one entry to the log. -/
def exynos_panel.record (ctx : exynos_panel) (e : panel_event) : exynos_panel :=
  { ctx with log := ctx.log ++ [e] }

/-- Modelled from the spec: `exynos_dcs_write`, the transport write of §6,
`write(addr_or_cmd, bytes[]) -> ok|error`.  The bytes are handed to the bus and
the reply of the bus is the result. -/
def exynos_dcs_write (ctx : exynos_panel) (data : List Nat) :
    exynos_panel × Except Errno Unit :=
  match ctx.dsi ctx.log.length with
  | .ok _ => (ctx.record (.write data), .ok ())
  | .io_error => (ctx.record (.write data), .error Errno.EIO)

/-- Modelled from the spec: the header macro `EXYNOS_DCS_WRITE_SEQ(ctx, seq...)`,
one transport write of the bytes `seq`.  The macro is a statement, in `void`
functions and in `shoreline_enable` alike: the result of the write does not
reach the code that follows. -/
def EXYNOS_DCS_WRITE_SEQ (ctx : exynos_panel) (seq : List Nat) : exynos_panel :=
  (exynos_dcs_write ctx seq).1

/-- Modelled from the spec: the header macro `EXYNOS_DCS_WRITE_TABLE(ctx, table)`,
one transport write of a byte table; a statement like `EXYNOS_DCS_WRITE_SEQ`. -/
def EXYNOS_DCS_WRITE_TABLE (ctx : exynos_panel) (table : List Nat) : exynos_panel :=
  (exynos_dcs_write ctx table).1

/-- The count that a read of `len` bytes returns for a reply of the bus: the
number of bytes received, or the error. -/
def dsi_reply.read_count (r : dsi_reply) (len : Nat) : Except Errno Nat :=
  match r with
  | .ok rx => .ok (rx.take len).length
  | .io_error => .error Errno.EIO

/-- Modelled from the spec: `mipi_dsi_dcs_read(dsi, cmd, data, len)`, the
transport read of §6, `read(addr_or_cmd, len) -> bytes|error`.  The result is the
context, the count returned (the number of bytes received, at most `len`, or
the error) and the content of the buffer `data` afterwards: the bytes received
followed by what the buffer held beyond them. -/
def mipi_dsi_dcs_read (ctx : exynos_panel) (cmd : Nat) (data : List Nat) (len : Nat) :
    exynos_panel × Except Errno Nat × List Nat :=
  match ctx.dsi ctx.log.length with
  | .ok rx =>
    (ctx.record (.read cmd len), .ok (rx.take len).length,
      rx.take len ++ data.drop (rx.take len).length)
  | .io_error => (ctx.record (.read cmd len), .error Errno.EIO, data)

/-- Modelled from the spec: `exynos_panel_send_cmd_set`, the command sequencer
of §4.1: "Executes writes strictly in order; if a delay is specified, the
calling context suspends for at least that duration before the next entry. A
write failure aborts the remaining sequence and surfaces the error". -/
def exynos_panel_send_cmd_set (ctx : exynos_panel) :
    List exynos_dsi_cmd → exynos_panel × Except Errno Unit
  | [] => (ctx, .ok ())
  | c :: cs =>
    match exynos_dcs_write ctx c.cmd with
    | (ctx, .error e) => (ctx, .error e)
    | (ctx, .ok _) =>
      exynos_panel_send_cmd_set
        (if c.delay_ms = 0 then ctx else ctx.record (.delay_ms c.delay_ms)) cs

/-- The events a command set puts on a bus that accepts every write. -/
def cmd_set_events : List exynos_dsi_cmd → List panel_event
  | [] => []
  | c :: cs =>
    (if c.delay_ms = 0 then [panel_event.write c.cmd]
     else [panel_event.write c.cmd, panel_event.delay_ms c.delay_ms]) ++ cmd_set_events cs

/-- The framework call `exynos_panel_reset(ctx)`, recorded in the log. -/
def exynos_panel_reset (ctx : exynos_panel) : exynos_panel :=
  ctx.record .reset

/-- The framework call `exynos_dcs_compression_mode(ctx, v)`, recorded in the log. -/
def exynos_dcs_compression_mode (ctx : exynos_panel) (v : Nat) : exynos_panel :=
  ctx.record (.compression_mode v)

/-- The header macro `EXYNOS_PPS_LONG_WRITE(ctx)`, recorded in the log with the
parameter set of the panel description (`.dsc_pps = PPS_SETTING`, line 709). -/
def EXYNOS_PPS_LONG_WRITE (ctx : exynos_panel) : exynos_panel :=
  ctx.record (.pps_long_write PPS_SETTING)

/-- The framework call `exynos_panel_set_lp_mode(ctx, pmode)`, the low-power
path with its brightness-bin commands, recorded in the log. -/
def exynos_panel_set_lp_mode (ctx : exynos_panel) (_pmode : exynos_panel_mode) :
    exynos_panel :=
  ctx.record .set_lp_mode

/-- The call `usleep_range(min, max)`, recorded in the log. -/
def usleep_range (ctx : exynos_panel) (min max : Nat) : exynos_panel :=
  ctx.record (.usleep_range min max)

/-- Modelled from the spec: the kernel macro `mult_frac(x, numer, denom)`,
`(x / denom) * numer + ((x % denom) * numer) / denom` in unsigned 32-bit
arithmetic; the spec gives its value as `x * numer / denom` (§4.5, §8).  A zero
`denom` is a division by zero: `none`. -/
def mult_frac (x numer denom : Nat) : Option Nat :=
  if denom = 0 then none
  else
    let quot := u32 (x / denom)
    let rem := u32 (x % denom)
    some (u32 (u32 (quot * numer) + u32 (rem * numer) / denom))

/-! ## Calibration cache (lines 139 to 192) -/

/-- Embedding of `shoreline_lhbm_gamma_read`.  `rd` is what a call of
`mipi_dsi_dcs_read` yields: the context, `ret` and the five bytes of the buffer
from offset 1 on. -/
def shoreline_lhbm_gamma_read (ctx : exynos_panel) : exynos_panel :=
  let ctx := EXYNOS_DCS_WRITE_TABLE ctx test_key_on_f0
  let ctx := EXYNOS_DCS_WRITE_SEQ ctx [0xB0, 0x00, 0x22, 0xD8]
  let rd := mipi_dsi_dcs_read ctx 0xD8 (ctx.hs_cmd.drop 1) (LHBM_GAMMA_CMD_SIZE - 1)
  let ctx := { rd.1 with hs_cmd := rd.1.hs_cmd.take 1 ++ rd.2.2 }
  let ctx :=
    if rd.2.1 = .ok (LHBM_GAMMA_CMD_SIZE - 1) then { ctx with hs_cmd := ctx.hs_cmd.set 0 0x66 }
    else ctx
  let ctx := EXYNOS_DCS_WRITE_SEQ ctx [0xB0, 0x00, 0x1D, 0xD8]
  let rd := mipi_dsi_dcs_read ctx 0xD8 (ctx.ns_cmd.drop 1) (LHBM_GAMMA_CMD_SIZE - 1)
  let ctx := { rd.1 with ns_cmd := rd.1.ns_cmd.take 1 ++ rd.2.2 }
  let ctx :=
    if rd.2.1 = .ok (LHBM_GAMMA_CMD_SIZE - 1) then { ctx with ns_cmd := ctx.ns_cmd.set 0 0x66 }
    else ctx
  EXYNOS_DCS_WRITE_TABLE ctx test_key_off_f0

/-- The content of a calibration buffer `cmd` after `shoreline_lhbm_gamma_read`
has handled the reply `r` of the bus to the read of its family. -/
def gamma_buffer_after (r : dsi_reply) (cmd : List Nat) : List Nat :=
  match r with
  | .ok rx =>
    let buf := cmd.take 1 ++
      ((rx.take (LHBM_GAMMA_CMD_SIZE - 1)) ++
        (cmd.drop 1).drop (rx.take (LHBM_GAMMA_CMD_SIZE - 1)).length)
    if (rx.take (LHBM_GAMMA_CMD_SIZE - 1)).length = LHBM_GAMMA_CMD_SIZE - 1 then buf.set 0 0x66
    else buf
  | .io_error => cmd.take 1 ++ cmd.drop 1

/-- Embedding of `shoreline_lhbm_gamma_write`. -/
def shoreline_lhbm_gamma_write (ctx : exynos_panel) : exynos_panel :=
  let hs_cmd := ctx.hs_cmd
  let ns_cmd := ctx.ns_cmd
  if hs_cmd.getD 0 0 = 0 ∧ ns_cmd.getD 0 0 = 0 then ctx
  else
    let ctx := EXYNOS_DCS_WRITE_TABLE ctx test_key_on_f0
    let ctx :=
      if hs_cmd.getD 0 0 ≠ 0 then
        let ctx := EXYNOS_DCS_WRITE_SEQ ctx [0xB0, 0x03, 0xD7, 0x66]
        (exynos_dcs_write ctx (hs_cmd.take LHBM_GAMMA_CMD_SIZE)).1
      else ctx
    let ctx :=
      if ns_cmd.getD 0 0 ≠ 0 then
        let ctx := EXYNOS_DCS_WRITE_SEQ ctx [0xB0, 0x03, 0xE6, 0x66]
        (exynos_dcs_write ctx (ns_cmd.take LHBM_GAMMA_CMD_SIZE)).1
      else ctx
    EXYNOS_DCS_WRITE_TABLE ctx test_key_off_f0

/-- The log entries of one `shoreline_lhbm_gamma_write`: nothing when both
buffers are invalid (byte 0 is zero); otherwise unlock, then for each valid
buffer its pointer select and its 6 bytes, then lock. -/
def lhbm_gamma_write_events (ctx : exynos_panel) : List panel_event :=
  if ctx.hs_cmd.getD 0 0 = 0 ∧ ctx.ns_cmd.getD 0 0 = 0 then []
  else
    [.write [0xF0, 0x5A, 0x5A]] ++
    (if ctx.hs_cmd.getD 0 0 ≠ 0 then
      [.write [0xB0, 0x03, 0xD7, 0x66], .write (ctx.hs_cmd.take 6)]
     else []) ++
    (if ctx.ns_cmd.getD 0 0 ≠ 0 then
      [.write [0xB0, 0x03, 0xE6, 0x66], .write (ctx.ns_cmd.take 6)]
     else []) ++
    [.write [0xF0, 0xA5, 0xA5]]

/-! ## TE2 update (lines 217 to 274) -/

/-- Embedding of `shoreline_update_te2`.  `&setting[i][1]` is the buffer made of
the last three bytes of row `i`; the source reads `ctx->current_mode` without a
test, so with no current mode the call has no result (`none`).  The context is
passed by value, so the test `!ctx` is false. -/
def shoreline_update_te2 (k : Kernel) (ctx : exynos_panel) : Option exynos_panel :=
  match ctx.current_mode with
  | none => none
  | some current_mode =>
    let setting0 : List Nat := [0xCB, 0x00, 0x00, 0x30]
    let setting1 : List Nat := [0xCB, 0x00, 0x00, 0x30]
    let lp_setting : List Nat := [0xCB, 0x00, 0x00, 0x10]
    let setting0 := setting0.take 1 ++
      (shoreline_get_te2_setting (some (ctx.te2_mode_data 0)) (some (setting0.drop 1))).getD []
    let setting1 := setting1.take 1 ++
      (shoreline_get_te2_setting (some (ctx.te2_mode_data 1)) (some (setting1.drop 1))).getD []
    let lp : Option (List Nat) :=
      if current_mode.exynos_mode.is_lp_mode then
        match k.exynos_panel_get_current_mode_te2 ctx with
        | .ok timing =>
          some (lp_setting.take 1 ++
            (shoreline_get_te2_setting (some timing) (some (lp_setting.drop 1))).getD [])
        | .error .EAGAIN => some lp_setting
        | .error _ => none
      else some lp_setting
    match lp with
    | none => some ctx
    | some lp_setting =>
      let ctx := EXYNOS_DCS_WRITE_TABLE ctx test_key_on_f0
      let ctx := EXYNOS_DCS_WRITE_SEQ ctx [0xB0, 0x28, 0xF2]
      let ctx := EXYNOS_DCS_WRITE_SEQ ctx [0xF2, 0xCC]
      let ctx := EXYNOS_DCS_WRITE_SEQ ctx [0xB0, 0x00, 0x26, 0xF2]
      let ctx := EXYNOS_DCS_WRITE_SEQ ctx [0xF2, 0x03, 0x14]
      let ctx := EXYNOS_DCS_WRITE_SEQ ctx [0xB0, 0x00, 0xAF, 0xCB]
      let ctx := EXYNOS_DCS_WRITE_TABLE ctx setting0
      let ctx := EXYNOS_DCS_WRITE_SEQ ctx [0xB0, 0x01, 0x2F, 0xCB]
      let ctx := EXYNOS_DCS_WRITE_TABLE ctx setting1
      let ctx :=
        if current_mode.exynos_mode.is_lp_mode then
          let ctx := EXYNOS_DCS_WRITE_SEQ ctx [0xB0, 0x01, 0xAF, 0xCB]
          EXYNOS_DCS_WRITE_TABLE ctx lp_setting
        else ctx
      let ctx := EXYNOS_DCS_WRITE_SEQ ctx [0xB0, 0x00, 0x28, 0xF2]
      let ctx := EXYNOS_DCS_WRITE_SEQ ctx [0xF2, 0xC4]
      let ctx := EXYNOS_DCS_WRITE_TABLE ctx freq_update
      some (EXYNOS_DCS_WRITE_TABLE ctx test_key_off_f0)

/-! ## Frequency, control word, power state (lines 276 to 397) -/

/-- Embedding of `shoreline_change_frequency`.  The context is passed by value,
so the test `!ctx` of the source is false. -/
def shoreline_change_frequency (ctx : exynos_panel) (vrefresh : Nat) : exynos_panel :=
  if vrefresh ≠ 60 ∧ vrefresh ≠ 120 then ctx
  else
    let ctx := EXYNOS_DCS_WRITE_SEQ ctx [0x60, if vrefresh = 120 then 0x00 else 0x08, 0x00]
    EXYNOS_DCS_WRITE_TABLE ctx freq_update

/-- Embedding of `shoreline_set_op_hz`.  The source reads `ctx->current_mode->mode`
without a test: with no current mode the call has no result (`none`). -/
def shoreline_set_op_hz (k : Kernel) (ctx : exynos_panel) (hz : Nat) :
    Option (exynos_panel × Except Errno Unit) :=
  match ctx.current_mode with
  | none => none
  | some current_mode =>
    let vrefresh := k.drm_mode_vrefresh current_mode.mode
    if vrefresh > hz ∨ (hz ≠ 60 ∧ hz ≠ 120) then some (ctx, .error .EINVAL)
    else
      let ctx := { ctx with op_hz := hz }
      let ctx :=
        if ctx.op_hz = 60 then (exynos_panel_send_cmd_set ctx shoreline_mode_ns_60_cmds).1
        else if vrefresh = 60 then (exynos_panel_send_cmd_set ctx shoreline_mode_hs_60_cmds).1
        else (exynos_panel_send_cmd_set ctx shoreline_mode_hs_120_cmds).1
      some (ctx, .ok ())

/-- The byte `val` that `shoreline_update_wrctrld` composes (lines 317 to 326). -/
def shoreline_wrctrld_val (ctx : exynos_panel) : Nat :=
  let val := u8 SHORELINE_WRCTRLD_BCTRL_BIT
  let val := if IS_HBM_ON ctx.hbm_mode then u8 (val ||| SHORELINE_WRCTRLD_HBM_BIT) else val
  let val :=
    if ctx.local_hbm_enabled then u8 (val ||| SHORELINE_WRCTRLD_LOCAL_HBM_BIT) else val
  let val := if ctx.dimming_on then u8 (val ||| SHORELINE_WRCTRLD_DIMMING_BIT) else val
  val

/-- The control byte in arithmetic form: `0x20` plus the bits of the flags that are set. -/
def wrctrld_sum (hbm local_hbm dimming : Bool) : Nat :=
  0x20 + (if hbm then 0xC0 else 0) + (if local_hbm then 0x10 else 0) +
    (if dimming then 0x08 else 0)

/-- Embedding of `shoreline_update_wrctrld`. -/
def shoreline_update_wrctrld (k : Kernel) (ctx : exynos_panel) : exynos_panel :=
  EXYNOS_DCS_WRITE_SEQ ctx [k.MIPI_DCS_WRITE_CONTROL_DISPLAY, shoreline_wrctrld_val ctx]

/-- Embedding of `shoreline_set_nolp_mode`.  `mult_frac` divides by `vrefresh`
before the test of `ctx->enabled`: with `vrefresh = 0` the call has no result. -/
def shoreline_set_nolp_mode (k : Kernel) (ctx : exynos_panel) (pmode : exynos_panel_mode) :
    Option exynos_panel :=
  let vrefresh := k.drm_mode_vrefresh pmode.mode
  match mult_frac 1000 1020 vrefresh with
  | none => none
  | some delay_us =>
    if ctx.enabled = false then some ctx
    else
      let ctx := EXYNOS_DCS_WRITE_SEQ ctx [k.MIPI_DCS_SET_DISPLAY_OFF]
      let ctx := EXYNOS_DCS_WRITE_TABLE ctx test_key_on_f0
      let ctx := shoreline_update_wrctrld k ctx
      let ctx := EXYNOS_DCS_WRITE_TABLE ctx test_key_off_f0
      let ctx := shoreline_change_frequency ctx vrefresh
      let ctx := usleep_range ctx delay_us (u32 (delay_us + 10))
      let ctx := EXYNOS_DCS_WRITE_SEQ ctx [k.MIPI_DCS_SET_DISPLAY_ON]
      some ctx

/-- Embedding of `shoreline_enable`. -/
def shoreline_enable (k : Kernel) (ctx : exynos_panel) : exynos_panel × Except Errno Unit :=
  match ctx.current_mode with
  | none => (ctx, .error .EINVAL)
  | some pmode =>
    let mode := pmode.mode
    let ctx := exynos_panel_reset ctx
    let ctx := (exynos_panel_send_cmd_set ctx (shoreline_init_cmds k)).1
    let ctx := shoreline_change_frequency ctx (k.drm_mode_vrefresh mode)
    let ctx := shoreline_lhbm_gamma_write ctx
    let ctx := (exynos_panel_send_cmd_set ctx shoreline_lhbm_location_cmds).1
    let ctx := exynos_dcs_compression_mode ctx 0x1
    let ctx := EXYNOS_PPS_LONG_WRITE ctx
    let ctx := shoreline_update_wrctrld k ctx
    let ctx := { ctx with enabled := true }
    let ctx :=
      if pmode.exynos_mode.is_lp_mode then exynos_panel_set_lp_mode ctx pmode
      else EXYNOS_DCS_WRITE_SEQ ctx [k.MIPI_DCS_SET_DISPLAY_ON]
    (ctx, .ok ())

/-- The enable sequence of the specification (§8, end-to-end) for the 60 Hz
normal mode: exit sleep, tear on, address window, 60 Hz high-speed select,
frequency-update strobe, calibration reapply, LHBM location, compression-mode
enable, control word, display on. -/
def spec_enable_60_sequence (k : Kernel) (ctx : exynos_panel) : List panel_event :=
  [.write [k.MIPI_DCS_EXIT_SLEEP_MODE],
   .write [k.MIPI_DCS_SET_TEAR_ON],
   .write [k.MIPI_DCS_SET_COLUMN_ADDRESS, 0x00, 0x00, 0x04, 0x37],
   .write [k.MIPI_DCS_SET_PAGE_ADDRESS, 0x00, 0x00, 0x09, 0x5F],
   .write [0x60, 0x08, 0x00], .write [0xF7, 0x0F]] ++
  lhbm_gamma_write_events ctx ++
  [.write [0xF0, 0x5A, 0x5A],
   .write [0xB0, 0x00, 0x09, 0x6D],
   .write [0x6D, 0xC7, 0x4C, 0x65],
   .write [0x68, 0xC4, 0xB0, 0xFF],
   .write [0xF0, 0xA5, 0xA5],
   .compression_mode 0x1,
   .write [k.MIPI_DCS_WRITE_CONTROL_DISPLAY, shoreline_wrctrld_val ctx],
   .write [k.MIPI_DCS_SET_DISPLAY_ON]]

/-- What `shoreline_enable` puts in the log for the 60 Hz normal mode on a bus
that accepts every write. -/
def shoreline_enable_60_events (k : Kernel) (ctx : exynos_panel) : List panel_event :=
  [.reset,
   .write [k.MIPI_DCS_EXIT_SLEEP_MODE], .delay_ms 120,
   .write [k.MIPI_DCS_SET_TEAR_ON],
   .write [k.MIPI_DCS_SET_COLUMN_ADDRESS, 0x00, 0x00, 0x04, 0x37],
   .write [k.MIPI_DCS_SET_PAGE_ADDRESS, 0x00, 0x00, 0x09, 0x5F],
   .write [0x60, 0x08, 0x00], .write [0xF7, 0x0F],
   .write [0x60, 0x08, 0x00], .write [0xF7, 0x0F]] ++
  lhbm_gamma_write_events ctx ++
  [.write [0xF0, 0x5A, 0x5A],
   .write [0xB0, 0x00, 0x09, 0x6D],
   .write [0x6D, 0xC7, 0x4C, 0x65],
   .write [0x68, 0xC4, 0xB0, 0xFF],
   .write [0xF0, 0xA5, 0xA5],
   .compression_mode 0x1,
   .pps_long_write PPS_SETTING,
   .write [k.MIPI_DCS_WRITE_CONTROL_DISPLAY, shoreline_wrctrld_val ctx],
   .write [k.MIPI_DCS_SET_DISPLAY_ON]]

/-! ## Brightness modes and mode set (lines 399 to 490) -/

/-- Embedding of `shoreline_set_hbm_mode`. -/
def shoreline_set_hbm_mode (k : Kernel) (exynos_panel : exynos_panel)
    (mode : exynos_hbm_mode) : Shoreline.exynos_panel :=
  let hbm_update := IS_HBM_ON exynos_panel.hbm_mode != IS_HBM_ON mode
  let irc_update := IS_HBM_ON_IRC_OFF exynos_panel.hbm_mode != IS_HBM_ON_IRC_OFF mode
  let exynos_panel := { exynos_panel with hbm_mode := mode }
  let exynos_panel :=
    if hbm_update then
      let exynos_panel :=
        if mode ≠ .HBM_OFF then
          let exynos_panel := EXYNOS_DCS_WRITE_TABLE exynos_panel test_key_on_f0
          let exynos_panel := EXYNOS_DCS_WRITE_SEQ exynos_panel [0xB0, 0x28, 0xF2]
          let exynos_panel := EXYNOS_DCS_WRITE_SEQ exynos_panel [0xF2, 0xCC]
          let exynos_panel := EXYNOS_DCS_WRITE_SEQ exynos_panel [0xB0, 0x02, 0x33, 0x65]
          let exynos_panel := EXYNOS_DCS_WRITE_SEQ exynos_panel [0x65, 0x01]
          let exynos_panel := EXYNOS_DCS_WRITE_SEQ exynos_panel [0xB0, 0x00, 0x28, 0xF2]
          let exynos_panel := EXYNOS_DCS_WRITE_SEQ exynos_panel [0xF2, 0xC4]
          EXYNOS_DCS_WRITE_TABLE exynos_panel test_key_off_f0
        else exynos_panel
      shoreline_update_wrctrld k exynos_panel
    else exynos_panel
  if irc_update then
    let exynos_panel := EXYNOS_DCS_WRITE_SEQ exynos_panel [0xF0, 0x5A, 0x5A]
    let exynos_panel := EXYNOS_DCS_WRITE_SEQ exynos_panel [0xB0, 0x03, 0x8F]
    let exynos_panel :=
      EXYNOS_DCS_WRITE_SEQ exynos_panel [0x8F, if IS_HBM_ON_IRC_OFF mode then 0x05 else 0x25]
    EXYNOS_DCS_WRITE_SEQ exynos_panel [0xF0, 0xA5, 0xA5]
  else exynos_panel

/-- Embedding of `shoreline_set_dimming_on`.  The source reads
`exynos_panel->current_mode` without a test: with no current mode the call has
no result (`none`). -/
def shoreline_set_dimming_on (k : Kernel) (exynos_panel : exynos_panel) (dimming_on : Bool) :
    Option Shoreline.exynos_panel :=
  match exynos_panel.current_mode with
  | none => none
  | some pmode =>
    let exynos_panel := { exynos_panel with dimming_on := dimming_on }
    if pmode.exynos_mode.is_lp_mode then some exynos_panel
    else some (shoreline_update_wrctrld k exynos_panel)

/-- Embedding of `shoreline_set_local_hbm_mode`. -/
def shoreline_set_local_hbm_mode (k : Kernel) (exynos_panel : exynos_panel)
    (local_hbm_en : Bool) : Shoreline.exynos_panel :=
  if exynos_panel.local_hbm_enabled = local_hbm_en then exynos_panel
  else
    let exynos_panel := { exynos_panel with local_hbm_enabled := local_hbm_en }
    let exynos_panel :=
      if local_hbm_en then
        let exynos_panel := EXYNOS_DCS_WRITE_TABLE exynos_panel test_key_on_f0
        let exynos_panel := EXYNOS_DCS_WRITE_SEQ exynos_panel [0xB0, 0xDE, 0x66]
        let exynos_panel := EXYNOS_DCS_WRITE_SEQ exynos_panel [0x66, 0x00, 0x49]
        let exynos_panel := EXYNOS_DCS_WRITE_SEQ exynos_panel [0xB0, 0x28, 0xF2]
        let exynos_panel := EXYNOS_DCS_WRITE_SEQ exynos_panel [0xF2, 0xCC]
        let exynos_panel := EXYNOS_DCS_WRITE_SEQ exynos_panel [0xB0, 0x02, 0x2D, 0x65]
        let exynos_panel :=
          EXYNOS_DCS_WRITE_SEQ exynos_panel [0x65, 0x00, 0x72, 0x00, 0x7C, 0x00, 0x7C]
        let exynos_panel := EXYNOS_DCS_WRITE_SEQ exynos_panel [0xB0, 0x00, 0x28, 0xF2]
        let exynos_panel := EXYNOS_DCS_WRITE_SEQ exynos_panel [0xF2, 0xC4]
        EXYNOS_DCS_WRITE_TABLE exynos_panel test_key_off_f0
      else exynos_panel
    shoreline_update_wrctrld k exynos_panel

/-- Embedding of `shoreline_mode_set`. -/
def shoreline_mode_set (k : Kernel) (ctx : exynos_panel) (pmode : exynos_panel_mode) :
    exynos_panel :=
  if ctx.enabled = false then ctx
  else shoreline_change_frequency ctx (k.drm_mode_vrefresh pmode.mode)

/-- Embedding of `shoreline_panel_init` without the debugfs entry it creates. -/
def shoreline_panel_init (ctx : exynos_panel) : exynos_panel :=
  let ctx := shoreline_lhbm_gamma_read ctx
  shoreline_lhbm_gamma_write ctx

/-- Embedding of `shoreline_panel_probe` up to the call of
`exynos_panel_common_init`: the context is zeroed by `devm_kzalloc`, then
`op_hz` is set to 120.  `dsi` is the device the panel is probed on. -/
def shoreline_panel_probe (dsi : Nat → dsi_reply) : exynos_panel :=
  let spanel : exynos_panel :=
    { enabled := false, current_mode := none, op_hz := 0, hbm_mode := .HBM_OFF,
      local_hbm_enabled := false, dimming_on := false, panel_rev := 0,
      te2_mode_data := fun _ => ⟨0, 0⟩,
      hs_cmd := List.replicate LHBM_GAMMA_CMD_SIZE 0,
      ns_cmd := List.replicate LHBM_GAMMA_CMD_SIZE 0,
      dsi := dsi, log := [] }
  { spanel with op_hz := 120 }

/-! ## Mode table (lines 548 to 615) and sample values of the headers -/

/-- The table `shoreline_modes` (lines 548 to 615): 1080x2400 at 60 Hz and at 120 Hz. -/
def shoreline_modes : List exynos_panel_mode := [
  { mode := { clock := 168498, hdisplay := 1080, hsync_start := 1080 + 32,
              hsync_end := 1080 + 32 + 12, htotal := 1080 + 32 + 12 + 26,
              vdisplay := 2400, vsync_start := 2400 + 12, vsync_end := 2400 + 12 + 4,
              vtotal := 2400 + 12 + 4 + 26, flags := 0, width_mm := 70, height_mm := 149 },
    exynos_mode := { is_lp_mode := false },
    te2_timing := { rising_edge := 0, falling_edge := 0 + 48 } },
  { mode := { clock := 336996, hdisplay := 1080, hsync_start := 1080 + 32,
              hsync_end := 1080 + 32 + 12, htotal := 1080 + 32 + 12 + 26,
              vdisplay := 2400, vsync_start := 2400 + 12, vsync_end := 2400 + 12 + 4,
              vtotal := 2400 + 12 + 4 + 26, flags := 0, width_mm := 70, height_mm := 149 },
    exynos_mode := { is_lp_mode := false },
    te2_timing := { rising_edge := 0, falling_edge := 0 + 48 } }]

/-- The 60 Hz entry of `shoreline_modes`. -/
def shoreline_mode_60 : exynos_panel_mode :=
  shoreline_modes.getD 0 ⟨⟨0, 0, 0, 0, 0, 0, 0, 0, 0, 0, 0, 0⟩, ⟨false⟩, ⟨0, 0⟩⟩

/-- The 120 Hz entry of `shoreline_modes`. -/
def shoreline_mode_120 : exynos_panel_mode :=
  shoreline_modes.getD 1 ⟨⟨0, 0, 0, 0, 0, 0, 0, 0, 0, 0, 0, 0⟩, ⟨false⟩, ⟨0, 0⟩⟩

/-- Sample values for the parameter `Kernel`, on which the model is evaluated at
concrete inputs: the opcodes of the MIPI DCS command set, the refresh rate as
pixel clock over frame size, rounded to nearest, and a panel whose low-power
TE2 timing is not ready. -/
def sample_kernel : Kernel where
  MIPI_DCS_ENTER_SLEEP_MODE := 0x10
  MIPI_DCS_EXIT_SLEEP_MODE := 0x11
  MIPI_DCS_SET_DISPLAY_OFF := 0x28
  MIPI_DCS_SET_DISPLAY_ON := 0x29
  MIPI_DCS_SET_COLUMN_ADDRESS := 0x2A
  MIPI_DCS_SET_PAGE_ADDRESS := 0x2B
  MIPI_DCS_SET_TEAR_ON := 0x35
  MIPI_DCS_WRITE_CONTROL_DISPLAY := 0x53
  drm_mode_vrefresh := fun m =>
    if m.htotal = 0 ∨ m.vtotal = 0 then 0
    else (m.clock * 1000 + m.htotal * m.vtotal / 2) / (m.htotal * m.vtotal)
  exynos_panel_get_current_mode_te2 := fun _ => .error .EAGAIN

/-- A bus that accepts every transfer and answers every read with no bytes. -/
def dsi_accepting : Nat → dsi_reply := fun _ => .ok []

/-- A bus that answers the read of the high-speed calibration data (the third
transfer) with 4 bytes and every other transfer with 5 bytes. -/
def dsi_short_hs : Nat → dsi_reply :=
  fun n => if n = 2 then .ok [1, 2, 3, 4] else .ok [9, 8, 7, 6, 5]

/-- A bus that answers the read of the normal-speed calibration data (the fifth
transfer) with an error and every other transfer with 5 bytes. -/
def dsi_short_ns : Nat → dsi_reply :=
  fun n => if n = 4 then .io_error else .ok [9, 8, 7, 6, 5]

/-- A probed panel on an accepting bus whose current mode is the 60 Hz mode. -/
def sample_panel_60 : exynos_panel :=
  { shoreline_panel_probe dsi_accepting with current_mode := some shoreline_mode_60 }

/-- A probed panel on an accepting bus whose current mode is the 120 Hz mode. -/
def sample_panel_120 : exynos_panel :=
  { shoreline_panel_probe dsi_accepting with current_mode := some shoreline_mode_120 }

/-- The panel `sample_panel_60` once enabled. -/
def sample_panel_60_enabled : exynos_panel :=
  { sample_panel_60 with enabled := true }

/-! ## Write failures and protected-register brackets -/

/-- A bus that fails the transfer made when the log holds `i` entries and
accepts every other transfer. -/
def dsi_fail_at (i : Nat) : Nat → dsi_reply :=
  fun n => if n = i then .io_error else .ok []

/-- The log entries of one run of the command sequencer on the bus `dsi`,
started when the log holds `n` entries: the entries of the set up to and
including the first write that fails. -/
def cmd_set_sent (dsi : Nat → dsi_reply) : Nat → List exynos_dsi_cmd → List panel_event
  | _, [] => []
  | n, c :: cs =>
    match dsi n with
    | .io_error => [.write c.cmd]
    | .ok _ =>
      if c.delay_ms = 0 then .write c.cmd :: cmd_set_sent dsi (n + 1) cs
      else .write c.cmd :: .delay_ms c.delay_ms :: cmd_set_sent dsi (n + 2) cs

/-- The log entries that an operation added: the log of `after` beyond the
length of the log of `before`. -/
def issued (before after : exynos_panel) : List panel_event :=
  after.log.drop before.log.length

/-- The state of the protected registers (`true` is unlocked) after the log
entries `es`, starting from the state `unlocked`.  The result is `none` when
the unlock write `0xF0 0x5A 0x5A` is issued while the registers are unlocked or
the lock write `0xF0 0xA5 0xA5` while they are locked.  Hence
`key_scan false es = some false` says: the unlock and lock writes of `es`
alternate strictly, the first is an unlock and the last is a lock. -/
def key_scan : Bool → List panel_event → Option Bool
  | unlocked, [] => some unlocked
  | unlocked, .write data :: es =>
    if data = test_key_on_f0 then (if unlocked then none else key_scan true es)
    else if data = test_key_off_f0 then (if unlocked then key_scan false es else none)
    else key_scan unlocked es
  | unlocked, .read _ _ :: es => key_scan unlocked es
  | unlocked, .delay_ms _ :: es => key_scan unlocked es
  | unlocked, .usleep_range _ _ :: es => key_scan unlocked es
  | unlocked, .reset :: es => key_scan unlocked es
  | unlocked, .compression_mode _ :: es => key_scan unlocked es
  | unlocked, .pps_long_write _ :: es => key_scan unlocked es
  | unlocked, .set_lp_mode :: es => key_scan unlocked es

/-- The context in which `shoreline_enable` sends the LHBM location set: the
one its first four calls produce (reset, init set, frequency change,
calibration reapply; lines 374 to 380). -/
def enable_before_location (k : Kernel) (ctx : exynos_panel) (pmode : exynos_panel_mode) :
    exynos_panel :=
  let ctx := exynos_panel_reset ctx
  let ctx := (exynos_panel_send_cmd_set ctx (shoreline_init_cmds k)).1
  let ctx := shoreline_change_frequency ctx (k.drm_mode_vrefresh pmode.mode)
  shoreline_lhbm_gamma_write ctx

/-- What `shoreline_enable` puts in the log on the bus `ctx.dsi`, whatever the
bus answers, when `pmode` is the current mode: reset; the init set up to and
including its first failed write (all of it when none fails); the frequency
select and strobe for a refresh rate of 60 or 120; the calibration reapply;
the LHBM location set up to and including its first failed write; compression
mode; the PPS block; the control word; display on, or the low-power path for
a low-power mode. -/
def shoreline_enable_events (k : Kernel) (ctx : exynos_panel) (pmode : exynos_panel_mode) :
    List panel_event :=
  let a := cmd_set_sent ctx.dsi (ctx.log.length + 1) (shoreline_init_cmds k)
  let f : List panel_event :=
    if k.drm_mode_vrefresh pmode.mode = 60 then
      [.write [0x60, 0x08, 0x00], .write [0xF7, 0x0F]]
    else if k.drm_mode_vrefresh pmode.mode = 120 then
      [.write [0x60, 0x00, 0x00], .write [0xF7, 0x0F]]
    else []
  let g := lhbm_gamma_write_events ctx
  let b := cmd_set_sent ctx.dsi (ctx.log.length + 1 + a.length + f.length + g.length)
    shoreline_lhbm_location_cmds
  [.reset] ++ a ++ f ++ g ++ b ++
    [.compression_mode 0x1,
     .pps_long_write PPS_SETTING,
     .write [k.MIPI_DCS_WRITE_CONTROL_DISPLAY, shoreline_wrctrld_val ctx],
     if pmode.exynos_mode.is_lp_mode then .set_lp_mode
     else .write [k.MIPI_DCS_SET_DISPLAY_ON]]

/-- A probed panel in the 60 Hz mode on a bus that fails transfer number `i`. -/
def sample_panel_60_fail (i : Nat) : exynos_panel :=
  { shoreline_panel_probe (dsi_fail_at i) with current_mode := some shoreline_mode_60 }

/-! ## Helper lemmas on bit operations -/

theorem and_0xFF (x : Nat) : x &&& 0xFF = x % 256 :=
  Nat.and_pow_two_sub_one_eq_mod x 8

theorem and_0xF (x : Nat) : x &&& 0xF = x % 16 :=
  Nat.and_pow_two_sub_one_eq_mod x 4

theorem shr_8 (x : Nat) : x >>> 8 = x / 256 :=
  Nat.shiftRight_eq_div_pow x 8

theorem shr_4 (x : Nat) : x >>> 4 = x / 16 :=
  Nat.shiftRight_eq_div_pow x 4

theorem shl4_or (a b : Nat) (hb : b < 16) : a <<< 4 ||| b = 16 * a + b := by
  rw [Nat.shiftLeft_eq, Nat.mul_comm a]
  exact (Nat.mul_add_lt_is_or (i := 4) hb a).symm

theorem shl8_or (a b : Nat) (hb : b < 256) : a <<< 8 ||| b = 256 * a + b := by
  rw [Nat.shiftLeft_eq, Nat.mul_comm a]
  exact (Nat.mul_add_lt_is_or (i := 8) hb a).symm

theorem u32_sub_of_le (a b : Nat) (hab : b ≤ a) (ha : a < 2 ^ 32) :
    u32_sub a b = a - b := by
  unfold u32_sub u32
  omega

theorem u32_sub_of_lt (a b : Nat) (hab : a < b) (hb : b < 2 ^ 32) :
    u32_sub a b = a + 2 ^ 32 - b := by
  unfold u32_sub u32
  omega

/-- The three bytes `shoreline_get_te2_setting` stores, in arithmetic form. -/
theorem get_te2_setting_bytes (r f s0 s1 s2 : Nat) :
    shoreline_get_te2_setting (some ⟨r, f⟩) (some [s0, s1, s2]) =
      some [16 * (u32 r / 256 % 16) + u32_sub (u32 f) (u32 r) / 256 % 16,
            u32 r % 256,
            u32_sub (u32 f) (u32 r) % 256] := by
  simp only [shoreline_get_te2_setting, List.set_cons_zero, List.set_cons_succ,
    and_0xFF, and_0xF, shr_8, u8]
  have h1 : u32 r / 256 % 16 % 2 ^ 8 = u32 r / 256 % 16 := by omega
  have h2 : u32_sub (u32 f) (u32 r) / 256 % 16 % 2 ^ 8 =
      u32_sub (u32 f) (u32 r) / 256 % 16 := by omega
  have h3 : u32 r % 256 % 2 ^ 8 = u32 r % 256 := by omega
  have h4 : u32_sub (u32 f) (u32 r) % 256 % 2 ^ 8 = u32_sub (u32 f) (u32 r) % 256 := by
    omega
  rw [h1, h2, h3, h4, shl4_or _ _ (by omega)]
  have h5 : (16 * (u32 r / 256 % 16) + u32_sub (u32 f) (u32 r) / 256 % 16) % 2 ^ 8 =
      16 * (u32 r / 256 % 16) + u32_sub (u32 f) (u32 r) / 256 % 16 := by omega
  rw [h5]

/-! ## Helper lemmas on the log -/

theorem exynos_dcs_write_fst (ctx : exynos_panel) (data : List Nat) :
    (exynos_dcs_write ctx data).1 = ctx.record (.write data) := by
  unfold exynos_dcs_write
  cases ctx.dsi ctx.log.length <;> rfl

theorem write_seq_eq (ctx : exynos_panel) (seq : List Nat) :
    EXYNOS_DCS_WRITE_SEQ ctx seq = ctx.record (.write seq) :=
  exynos_dcs_write_fst ctx seq

theorem write_table_eq (ctx : exynos_panel) (table : List Nat) :
    EXYNOS_DCS_WRITE_TABLE ctx table = ctx.record (.write table) :=
  exynos_dcs_write_fst ctx table

theorem with_log_self (ctx : exynos_panel) : ({ ctx with log := ctx.log ++ [] } : exynos_panel) = ctx := by
  cases ctx
  simp

/-- The command sequencer changes nothing but the log, which it extends. -/
theorem send_cmd_set_only_log (cs : List exynos_dsi_cmd) (ctx : exynos_panel) :
    ∃ l, (exynos_panel_send_cmd_set ctx cs).1 = { ctx with log := ctx.log ++ l } := by
  induction cs generalizing ctx with
  | nil => exact ⟨[], by simp [exynos_panel_send_cmd_set, with_log_self]⟩
  | cons c cs ih =>
    unfold exynos_panel_send_cmd_set
    have hw := exynos_dcs_write_fst ctx c.cmd
    rcases hres : exynos_dcs_write ctx c.cmd with ⟨ctx1, r⟩
    rw [hres] at hw
    simp only at hw
    subst hw
    cases r with
    | error e => exact ⟨[.write c.cmd], rfl⟩
    | ok u =>
      simp only
      by_cases hd : c.delay_ms = 0
      · obtain ⟨l, hl⟩ := ih (ctx.record (.write c.cmd))
        refine ⟨[.write c.cmd] ++ l, ?_⟩
        simp only [hd, if_true]
        rw [hl]
        simp [exynos_panel.record, List.append_assoc]
      · obtain ⟨l, hl⟩ := ih ((ctx.record (.write c.cmd)).record (.delay_ms c.delay_ms))
        refine ⟨[.write c.cmd, .delay_ms c.delay_ms] ++ l, ?_⟩
        simp only [hd, if_false]
        rw [hl]
        simp [exynos_panel.record, List.append_assoc]

theorem send_cmd_set_op_hz (cs : List exynos_dsi_cmd) (ctx : exynos_panel) :
    (exynos_panel_send_cmd_set ctx cs).1.op_hz = ctx.op_hz := by
  obtain ⟨l, hl⟩ := send_cmd_set_only_log cs ctx
  rw [hl]

/-- On a bus that accepts every write the command sequencer issues the whole set. -/
theorem send_cmd_set_accepting (cs : List exynos_dsi_cmd) (ctx : exynos_panel)
    (hdsi : ∀ n, ctx.dsi n ≠ .io_error) :
    exynos_panel_send_cmd_set ctx cs =
      ({ ctx with log := ctx.log ++ cmd_set_events cs }, .ok ()) := by
  induction cs generalizing ctx with
  | nil => simp [exynos_panel_send_cmd_set, cmd_set_events, with_log_self]
  | cons c cs ih =>
    unfold exynos_panel_send_cmd_set
    have hw : exynos_dcs_write ctx c.cmd = (ctx.record (.write c.cmd), .ok ()) := by
      unfold exynos_dcs_write
      cases h : ctx.dsi ctx.log.length with
      | ok rx => rfl
      | io_error => exact absurd h (hdsi _)
    rw [hw]
    simp only
    by_cases hd : c.delay_ms = 0
    · simp only [hd, if_true]
      rw [ih _ (by simpa [exynos_panel.record] using hdsi)]
      simp [exynos_panel.record, cmd_set_events, hd, List.append_assoc]
    · simp only [hd, if_false]
      rw [ih _ (by simpa [exynos_panel.record] using hdsi)]
      simp [exynos_panel.record, cmd_set_events, hd, List.append_assoc]

theorem send_cmd_set_accepting_with (cs : List exynos_dsi_cmd) (ctx : exynos_panel)
    (l : List panel_event) (hdsi : ∀ n, ctx.dsi n ≠ .io_error) :
    exynos_panel_send_cmd_set { ctx with log := l } cs =
      ({ ctx with log := l ++ cmd_set_events cs }, .ok ()) :=
  send_cmd_set_accepting cs { ctx with log := l } hdsi

/-- The control byte as the sum of the bits of the flags that are set. -/
theorem wrctrld_val_eq (ctx : exynos_panel) :
    shoreline_wrctrld_val ctx =
      wrctrld_sum (IS_HBM_ON ctx.hbm_mode) ctx.local_hbm_enabled ctx.dimming_on := by
  unfold shoreline_wrctrld_val
  cases IS_HBM_ON ctx.hbm_mode <;> cases ctx.local_hbm_enabled <;> cases ctx.dimming_on <;> rfl

theorem wrctrld_sum_bits : ∀ h l d : Bool,
    wrctrld_sum h l d &&& 0x20 = 0x20 ∧
    wrctrld_sum h l (!d) ^^^ wrctrld_sum h l d = 0x08 ∧
    wrctrld_sum h (!l) d ^^^ wrctrld_sum h l d = 0x10 ∧
    ∀ h2 : Bool, wrctrld_sum h2 l d ^^^ wrctrld_sum h l d = if h2 = h then 0 else 0xC0 := by
  decide

theorem wrctrld_val_with_log (ctx : exynos_panel) (l : List panel_event) :
    shoreline_wrctrld_val { ctx with log := l } = shoreline_wrctrld_val ctx := rfl

/-- The quotient that `mult_frac 1000 1020` computes, with the bounds that keep
every intermediate value below `2 ^ 32`. -/
theorem mult_frac_1000_1020 (v : Nat) (hv : 0 < v) :
    mult_frac 1000 1020 v = some (1000 * 1020 / v) ∧
      (1000 / v) * 1020 < 2 ^ 32 ∧ (1000 % v) * 1020 < 2 ^ 32 ∧
      (1000 / v) * 1020 + (1000 % v) * 1020 / v < 2 ^ 32 := by
  have hq : 1000 / v ≤ 1000 := Nat.div_le_self _ _
  have hr : 1000 % v ≤ 1000 := Nat.mod_le _ _
  have hsplit : 1000 * 1020 = v * (1000 / v * 1020) + 1000 % v * 1020 := by
    have h := Nat.div_add_mod 1000 v
    calc 1000 * 1020 = (v * (1000 / v) + 1000 % v) * 1020 := by rw [h]
      _ = v * (1000 / v * 1020) + 1000 % v * 1020 := by ring
  have hdiv : 1000 * 1020 / v = 1000 / v * 1020 + 1000 % v * 1020 / v := by
    rw [hsplit, Nat.mul_add_div hv]
  have hle : 1000 * 1020 / v ≤ 1000 * 1020 := Nat.div_le_self _ _
  have h2 : 1000 % v * 1020 / v ≤ 1000 * 1020 / v := by
    rw [hdiv]
    exact Nat.le_add_left _ _
  refine ⟨?_, by omega, by omega, by omega⟩
  unfold mult_frac u32
  rw [if_neg (by omega)]
  simp only
  rw [Nat.mod_eq_of_lt (a := 1000 / v) (by omega), Nat.mod_eq_of_lt (a := 1000 % v) (by omega),
    Nat.mod_eq_of_lt (a := 1000 / v * 1020) (by omega),
    Nat.mod_eq_of_lt (a := 1000 % v * 1020) (by omega), ← hdiv,
    Nat.mod_eq_of_lt (by omega)]

/-- The writes of `shoreline_change_frequency`. -/
theorem change_frequency_eq (ctx : exynos_panel) (vrefresh : Nat) :
    shoreline_change_frequency ctx vrefresh =
      { ctx with log := ctx.log ++
          if vrefresh ≠ 60 ∧ vrefresh ≠ 120 then []
          else [.write [0x60, if vrefresh = 120 then 0x00 else 0x08, 0x00],
                .write freq_update] } := by
  unfold shoreline_change_frequency
  by_cases h : vrefresh ≠ 60 ∧ vrefresh ≠ 120
  · rw [if_pos h, if_pos h, with_log_self]
  · rw [if_neg h, if_neg h]
    simp [write_seq_eq, write_table_eq, exynos_panel.record]

/-- The whole effect of `shoreline_set_nolp_mode` on an enabled panel. -/
theorem set_nolp_mode_enabled (k : Kernel) (ctx : exynos_panel) (pmode : exynos_panel_mode)
    (hv : 0 < k.drm_mode_vrefresh pmode.mode) (hen : ctx.enabled = true) :
    shoreline_set_nolp_mode k ctx pmode =
      some { ctx with log := ctx.log ++
        ([.write [k.MIPI_DCS_SET_DISPLAY_OFF], .write test_key_on_f0,
          .write [k.MIPI_DCS_WRITE_CONTROL_DISPLAY, shoreline_wrctrld_val ctx],
          .write test_key_off_f0] ++
         (if k.drm_mode_vrefresh pmode.mode ≠ 60 ∧ k.drm_mode_vrefresh pmode.mode ≠ 120 then []
          else [.write [0x60, if k.drm_mode_vrefresh pmode.mode = 120 then 0x00 else 0x08, 0x00],
                .write freq_update]) ++
         [.usleep_range (1000 * 1020 / k.drm_mode_vrefresh pmode.mode)
            (1000 * 1020 / k.drm_mode_vrefresh pmode.mode + 10),
          .write [k.MIPI_DCS_SET_DISPLAY_ON]]) } := by
  have hle : 1000 * 1020 / k.drm_mode_vrefresh pmode.mode ≤ 1000 * 1020 := Nat.div_le_self _ _
  have h10 : u32 (1000 * 1020 / k.drm_mode_vrefresh pmode.mode + 10) =
      1000 * 1020 / k.drm_mode_vrefresh pmode.mode + 10 := by
    unfold u32
    exact Nat.mod_eq_of_lt (by omega)
  unfold shoreline_set_nolp_mode
  simp only [(mult_frac_1000_1020 _ hv).1, h10]
  rw [if_neg (by simp [hen])]
  simp [write_seq_eq, write_table_eq, exynos_panel.record, shoreline_update_wrctrld,
    change_frequency_eq, usleep_range, wrctrld_val_with_log, List.append_assoc]

theorem dcs_read_eq (ctx : exynos_panel) (cmd : Nat) (data : List Nat) (len : Nat) :
    mipi_dsi_dcs_read ctx cmd data len =
      (ctx.record (.read cmd len), (ctx.dsi ctx.log.length).read_count len,
        match ctx.dsi ctx.log.length with
        | .ok rx => rx.take len ++ data.drop (rx.take len).length
        | .io_error => data) := by
  unfold mipi_dsi_dcs_read
  cases ctx.dsi ctx.log.length <;> rfl

theorem gamma_buffer_after_eq (r : dsi_reply) (cmd : List Nat) :
    gamma_buffer_after r cmd =
      if r.read_count (LHBM_GAMMA_CMD_SIZE - 1) = .ok (LHBM_GAMMA_CMD_SIZE - 1) then
        (cmd.take 1 ++
          match r with
          | .ok rx => rx.take (LHBM_GAMMA_CMD_SIZE - 1) ++
              (cmd.drop 1).drop (rx.take (LHBM_GAMMA_CMD_SIZE - 1)).length
          | .io_error => cmd.drop 1).set 0 0x66
      else
        cmd.take 1 ++
          match r with
          | .ok rx => rx.take (LHBM_GAMMA_CMD_SIZE - 1) ++
              (cmd.drop 1).drop (rx.take (LHBM_GAMMA_CMD_SIZE - 1)).length
          | .io_error => cmd.drop 1 := by
  cases r with
  | ok rx =>
    simp only [gamma_buffer_after, dsi_reply.read_count]
    by_cases h : (rx.take (LHBM_GAMMA_CMD_SIZE - 1)).length = LHBM_GAMMA_CMD_SIZE - 1
    · rw [if_pos h, if_pos (by rw [h])]
    · rw [if_neg h, if_neg (by
        intro hc
        injection hc with hc
        exact h hc)]
  | io_error =>
    simp only [gamma_buffer_after, dsi_reply.read_count]
    rw [if_neg (by intro hc; injection hc)]

/-- The whole effect of `shoreline_lhbm_gamma_read`. -/
theorem lhbm_gamma_read_eq (ctx : exynos_panel) :
    shoreline_lhbm_gamma_read ctx =
      { ctx with
        hs_cmd := gamma_buffer_after (ctx.dsi (ctx.log.length + 2)) ctx.hs_cmd,
        ns_cmd := gamma_buffer_after (ctx.dsi (ctx.log.length + 4)) ctx.ns_cmd,
        log := ctx.log ++
          [.write test_key_on_f0, .write [0xB0, 0x00, 0x22, 0xD8], .read 0xD8 5,
           .write [0xB0, 0x00, 0x1D, 0xD8], .read 0xD8 5, .write test_key_off_f0] } := by
  obtain ⟨en, cm, op, hbm, lh, dim, rev, te2, hs, ns, dsi, log⟩ := ctx
  unfold shoreline_lhbm_gamma_read
  simp only [write_seq_eq, write_table_eq, dcs_read_eq, exynos_panel.record,
    List.length_append, List.length_singleton, Nat.add_assoc, Nat.reduceAdd,
    gamma_buffer_after_eq]
  by_cases c2 : (dsi (log.length + 2)).read_count (LHBM_GAMMA_CMD_SIZE - 1) =
      .ok (LHBM_GAMMA_CMD_SIZE - 1)
  · simp only [c2, if_true, List.length_append, List.length_singleton, Nat.add_assoc,
      Nat.reduceAdd]
    by_cases c4 : (dsi (log.length + 4)).read_count (LHBM_GAMMA_CMD_SIZE - 1) =
        .ok (LHBM_GAMMA_CMD_SIZE - 1)
    · simp only [c4, if_true]
      simp [List.append_assoc, LHBM_GAMMA_CMD_SIZE]
    · simp only [c4, if_false]
      simp [List.append_assoc, LHBM_GAMMA_CMD_SIZE]
  · simp only [c2, if_false, List.length_append, List.length_singleton, Nat.add_assoc,
      Nat.reduceAdd]
    by_cases c4 : (dsi (log.length + 4)).read_count (LHBM_GAMMA_CMD_SIZE - 1) =
        .ok (LHBM_GAMMA_CMD_SIZE - 1)
    · simp only [c4, if_true]
      simp [List.append_assoc, LHBM_GAMMA_CMD_SIZE]
    · simp only [c4, if_false]
      simp [List.append_assoc, LHBM_GAMMA_CMD_SIZE]

/-- The whole effect of `shoreline_lhbm_gamma_write`. -/
theorem lhbm_gamma_write_eq (ctx : exynos_panel) :
    shoreline_lhbm_gamma_write ctx =
      { ctx with log := ctx.log ++ lhbm_gamma_write_events ctx } := by
  obtain ⟨en, cm, op, hbm, lh, dim, rev, te2, hs, ns, dsi, log⟩ := ctx
  unfold shoreline_lhbm_gamma_write lhbm_gamma_write_events
  simp only [write_seq_eq, write_table_eq, exynos_dcs_write_fst, exynos_panel.record]
  by_cases h1 : hs.getD 0 0 = 0 <;> by_cases h2 : ns.getD 0 0 = 0 <;>
    simp only [h1, h2, ne_eq, not_true_eq_false, not_false_eq_true, and_self, and_true,
      true_and, false_and, and_false, if_true, if_false, List.append_assoc, List.cons_append,
      List.nil_append, List.append_nil, List.singleton_append, LHBM_GAMMA_CMD_SIZE,
      test_key_on_f0, test_key_off_f0]

theorem lhbm_gamma_write_events_with_log (ctx : exynos_panel) (l : List panel_event) :
    lhbm_gamma_write_events { ctx with log := l } = lhbm_gamma_write_events ctx := rfl

/-! ## Helper lemmas on write failures -/

/-- The command sequencer on any bus: it extends the log by `cmd_set_sent`. -/
theorem send_cmd_set_sent (cs : List exynos_dsi_cmd) (ctx : exynos_panel) :
    (exynos_panel_send_cmd_set ctx cs).1 =
      { ctx with log := ctx.log ++ cmd_set_sent ctx.dsi ctx.log.length cs } := by
  induction cs generalizing ctx with
  | nil => simp [exynos_panel_send_cmd_set, cmd_set_sent, with_log_self]
  | cons c cs ih =>
    unfold exynos_panel_send_cmd_set exynos_dcs_write
    cases h : ctx.dsi ctx.log.length with
    | io_error => simp [cmd_set_sent, h, exynos_panel.record]
    | ok rx =>
      simp only
      by_cases hd : c.delay_ms = 0
      · simp only [hd, if_true]
        rw [ih]
        simp [exynos_panel.record, cmd_set_sent, h, hd, List.append_assoc]
      · simp only [hd, if_false]
        rw [ih]
        simp [exynos_panel.record, cmd_set_sent, h, hd, List.append_assoc, Nat.add_assoc]

theorem send_cmd_set_sent_with (cs : List exynos_dsi_cmd) (ctx : exynos_panel)
    (l : List panel_event) :
    (exynos_panel_send_cmd_set { ctx with log := l } cs).1 =
      { ctx with log := l ++ cmd_set_sent ctx.dsi l.length cs } :=
  send_cmd_set_sent cs { ctx with log := l }

/-- What the sequencer sends is an initial part of the whole set. -/
theorem cmd_set_sent_initial (dsi : Nat → dsi_reply) (cs : List exynos_dsi_cmd) (n : Nat) :
    ∃ t, cmd_set_sent dsi n cs ++ t = cmd_set_events cs := by
  induction cs generalizing n with
  | nil => exact ⟨[], rfl⟩
  | cons c cs ih =>
    unfold cmd_set_sent cmd_set_events
    cases dsi n with
    | io_error =>
      by_cases hd : c.delay_ms = 0
      · exact ⟨cmd_set_events cs, by simp [hd]⟩
      · exact ⟨.delay_ms c.delay_ms :: cmd_set_events cs, by simp [hd]⟩
    | ok rx =>
      by_cases hd : c.delay_ms = 0
      · obtain ⟨t, ht⟩ := ih (n + 1)
        exact ⟨t, by simp [hd, ht]⟩
      · obtain ⟨t, ht⟩ := ih (n + 2)
        exact ⟨t, by simp [hd, ht]⟩

/-! ## Helper lemmas on the protected-register brackets -/

theorem issued_of_log (before after : exynos_panel) (l : List panel_event)
    (h : after.log = before.log ++ l) : issued before after = l := by
  unfold issued
  rw [h, List.drop_left]

theorem key_scan_append (a b : List panel_event) (s : Bool) :
    key_scan s (a ++ b) = (key_scan s a).bind (fun s2 => key_scan s2 b) := by
  induction a generalizing s with
  | nil => rfl
  | cons e a ih =>
    cases e with
    | write data =>
      simp only [List.cons_append, key_scan]
      by_cases h1 : data = test_key_on_f0
      · simp only [h1, if_true]
        cases s
        · simp [ih]
        · simp
      · by_cases h2 : data = test_key_off_f0
        · have hne : ¬ test_key_off_f0 = test_key_on_f0 := by decide
          subst h2
          simp only [hne, if_true, if_false]
          cases s
          · simp
          · simp [ih]
        · simp only [h1, h2, if_false]
          exact ih s
    | read c l => simpa [key_scan] using ih s
    | delay_ms n => simpa [key_scan] using ih s
    | usleep_range lo hi => simpa [key_scan] using ih s
    | reset => simpa [key_scan] using ih s
    | compression_mode v => simpa [key_scan] using ih s
    | pps_long_write d => simpa [key_scan] using ih s
    | set_lp_mode => simpa [key_scan] using ih s

/-- A write that is neither key write leaves the state of the registers. -/
theorem key_scan_write_other (data : List Nat) (es : List panel_event) (s : Bool)
    (hon : data ≠ test_key_on_f0) (hoff : data ≠ test_key_off_f0) :
    key_scan s (.write data :: es) = key_scan s es := by
  simp only [key_scan, hon, hoff, if_false]

/-- A write of other than three bytes is not a key write. -/
theorem ne_keys_of_length (data : List Nat) (h : data.length ≠ 3) :
    data ≠ test_key_on_f0 ∧ data ≠ test_key_off_f0 := by
  constructor <;>
  · intro hc
    rw [hc] at h
    exact h rfl

theorem brackets_gamma_read (ctx : exynos_panel) :
    key_scan false (issued ctx (shoreline_lhbm_gamma_read ctx)) = some false := by
  rw [issued_of_log ctx _ _ (by rw [lhbm_gamma_read_eq])]
  decide

/-- The calibration reapply is nothing or one bracket, when the buffers hold 6 bytes. -/
theorem key_scan_gamma_write_events (ctx : exynos_panel)
    (hhs : ctx.hs_cmd.length = LHBM_GAMMA_CMD_SIZE)
    (hns : ctx.ns_cmd.length = LHBM_GAMMA_CMD_SIZE) :
    key_scan false (lhbm_gamma_write_events ctx) = some false := by
  have h1 := ne_keys_of_length (ctx.hs_cmd.take 6)
    (by rw [List.length_take, hhs]; decide)
  have h2 := ne_keys_of_length (ctx.ns_cmd.take 6)
    (by rw [List.length_take, hns]; decide)
  unfold lhbm_gamma_write_events
  by_cases c0 : ctx.hs_cmd.getD 0 0 = 0 ∧ ctx.ns_cmd.getD 0 0 = 0
  · rw [if_pos c0]
    rfl
  · rw [if_neg c0]
    by_cases c1 : ctx.hs_cmd.getD 0 0 ≠ 0 <;> by_cases c2 : ctx.ns_cmd.getD 0 0 ≠ 0
    · rw [if_pos c1, if_pos c2]
      simp only [List.cons_append, List.nil_append, List.append_assoc]
      simp only [key_scan, h1.1, h1.2, h2.1, h2.2, if_false]
      decide
    · rw [if_pos c1, if_neg c2]
      simp only [List.cons_append, List.nil_append, List.append_assoc, List.append_nil]
      simp only [key_scan, h1.1, h1.2, if_false]
      decide
    · rw [if_neg c1, if_pos c2]
      simp only [List.cons_append, List.nil_append, List.append_assoc, List.append_nil]
      simp only [key_scan, h2.1, h2.2, if_false]
      decide
    · rw [if_neg c1, if_neg c2]
      decide

theorem brackets_gamma_write (ctx : exynos_panel)
    (hhs : ctx.hs_cmd.length = LHBM_GAMMA_CMD_SIZE)
    (hns : ctx.ns_cmd.length = LHBM_GAMMA_CMD_SIZE) :
    key_scan false (issued ctx (shoreline_lhbm_gamma_write ctx)) = some false := by
  rw [issued_of_log ctx _ _ (by rw [lhbm_gamma_write_eq])]
  exact key_scan_gamma_write_events ctx hhs hns

/-- The control-word write is not a key write. -/
theorem wrctrld_write_ne_keys (a b : Nat) :
    [a, b] ≠ test_key_on_f0 ∧ [a, b] ≠ test_key_off_f0 :=
  ne_keys_of_length [a, b] (by simp)

theorem single_write_ne_keys (a : Nat) :
    [a] ≠ test_key_on_f0 ∧ [a] ≠ test_key_off_f0 :=
  ne_keys_of_length [a] (by simp)

theorem brackets_set_hbm_mode (k : Kernel) (ctx : exynos_panel) (mode : exynos_hbm_mode) :
    key_scan false (issued ctx (shoreline_set_hbm_mode k ctx mode)) = some false := by
  obtain ⟨en, cm, op, hbm, lh, dim, rev, te2, hs, ns, dsi, log⟩ := ctx
  have hw := fun b => wrctrld_write_ne_keys k.MIPI_DCS_WRITE_CONTROL_DISPLAY b
  cases hbm <;> cases mode <;>
    simp [shoreline_set_hbm_mode, IS_HBM_ON, IS_HBM_ON_IRC_OFF, write_seq_eq, write_table_eq,
      exynos_panel.record, shoreline_update_wrctrld, issued, key_scan, hw,
      test_key_on_f0, test_key_off_f0]

theorem brackets_set_local_hbm_mode (k : Kernel) (ctx : exynos_panel) (local_hbm_en : Bool) :
    key_scan false (issued ctx (shoreline_set_local_hbm_mode k ctx local_hbm_en)) =
      some false := by
  obtain ⟨en, cm, op, hbm, lh, dim, rev, te2, hs, ns, dsi, log⟩ := ctx
  have hw := fun b => wrctrld_write_ne_keys k.MIPI_DCS_WRITE_CONTROL_DISPLAY b
  cases lh <;> cases local_hbm_en <;>
    simp [shoreline_set_local_hbm_mode, write_seq_eq, write_table_eq,
      exynos_panel.record, shoreline_update_wrctrld, issued, key_scan, hw,
      test_key_on_f0, test_key_off_f0]

theorem issued_self (ctx : exynos_panel) : issued ctx ctx = [] := by
  unfold issued
  exact List.drop_length _

theorem brackets_set_nolp_mode (k : Kernel) (ctx : exynos_panel) (pmode : exynos_panel_mode)
    (hv : k.drm_mode_vrefresh pmode.mode ≠ 0) :
    ∃ r, shoreline_set_nolp_mode k ctx pmode = some r ∧
      key_scan false (issued ctx r) = some false := by
  by_cases hen : ctx.enabled = false
  · refine ⟨ctx, ?_, by rw [issued_self]; rfl⟩
    unfold shoreline_set_nolp_mode
    simp only [(mult_frac_1000_1020 _ (Nat.pos_of_ne_zero hv)).1]
    rw [if_pos hen]
  · refine ⟨_, set_nolp_mode_enabled k ctx pmode (Nat.pos_of_ne_zero hv) (by simpa using hen), ?_⟩
    rw [issued_of_log ctx _ _ rfl]
    have hw := wrctrld_write_ne_keys k.MIPI_DCS_WRITE_CONTROL_DISPLAY (shoreline_wrctrld_val ctx)
    have hoff := single_write_ne_keys k.MIPI_DCS_SET_DISPLAY_OFF
    have hon := single_write_ne_keys k.MIPI_DCS_SET_DISPLAY_ON
    by_cases hf : k.drm_mode_vrefresh pmode.mode ≠ 60 ∧ k.drm_mode_vrefresh pmode.mode ≠ 120
    · rw [if_pos hf]
      simp [key_scan, hw, hoff, hon, test_key_on_f0, test_key_off_f0]
    · rw [if_neg hf]
      simp [key_scan, hw, hoff, hon, test_key_on_f0, test_key_off_f0, freq_update]

theorem brackets_update_te2 (k : Kernel) (ctx : exynos_panel)
    (hmode : ctx.current_mode ≠ none) :
    ∃ r, shoreline_update_te2 k ctx = some r ∧
      key_scan false (issued ctx r) = some false := by
  obtain ⟨en, cm, op, hbm, lh, dim, rev, te2, hs, ns, dsi, log⟩ := ctx
  cases cm with
  | none => exact absurd rfl hmode
  | some current_mode =>
    unfold shoreline_update_te2
    simp only [write_seq_eq, write_table_eq, exynos_panel.record]
    cases hlp : current_mode.exynos_mode.is_lp_mode
    · simp [issued, key_scan, test_key_on_f0, test_key_off_f0, freq_update]
    · cases hret : k.exynos_panel_get_current_mode_te2
          ⟨en, some current_mode, op, hbm, lh, dim, rev, te2, hs, ns, dsi, log⟩ with
      | ok timing => simp [issued, key_scan, test_key_on_f0, test_key_off_f0, freq_update]
      | error e =>
        cases e <;> simp [issued, key_scan, test_key_on_f0, test_key_off_f0, freq_update]

/-- When the sequencer reports success it has sent the whole set. -/
theorem send_cmd_set_ok_full (cs : List exynos_dsi_cmd) (ctx : exynos_panel)
    (h : (exynos_panel_send_cmd_set ctx cs).2 = .ok ()) :
    cmd_set_sent ctx.dsi ctx.log.length cs = cmd_set_events cs := by
  induction cs generalizing ctx with
  | nil => rfl
  | cons c cs ih =>
    unfold exynos_panel_send_cmd_set exynos_dcs_write at h
    unfold cmd_set_sent cmd_set_events
    cases hd : ctx.dsi ctx.log.length with
    | io_error =>
      rw [hd] at h
      simp at h
    | ok rx =>
      rw [hd] at h
      simp only at h
      by_cases hz : c.delay_ms = 0
      · simp only [hz, if_true] at h ⊢
        have := ih _ h
        simp only [exynos_panel.record, List.length_append, List.length_singleton] at this
        rw [this]
        rfl
      · simp only [hz, if_false] at h ⊢
        have := ih _ h
        simp only [exynos_panel.record, List.length_append, List.length_singleton,
          Nat.add_assoc, Nat.reduceAdd] at this
        rw [this]
        rfl

/-- A command set without key writes leaves the state of the registers,
wherever the sequencer stops. -/
theorem key_scan_cmd_set_sent (dsi : Nat → dsi_reply) (cs : List exynos_dsi_cmd)
    (hk : ∀ c ∈ cs, c.cmd ≠ test_key_on_f0 ∧ c.cmd ≠ test_key_off_f0) (n : Nat) (s : Bool) :
    key_scan s (cmd_set_sent dsi n cs) = some s := by
  induction cs generalizing n with
  | nil => rfl
  | cons c cs ih =>
    have hc := hk c (List.mem_cons_self _ _)
    have hcs : ∀ c2 ∈ cs, c2.cmd ≠ test_key_on_f0 ∧ c2.cmd ≠ test_key_off_f0 :=
      fun c2 h2 => hk c2 (List.mem_cons_of_mem _ h2)
    unfold cmd_set_sent
    cases dsi n with
    | io_error =>
      simp only
      rw [key_scan_write_other _ _ _ hc.1 hc.2]
      rfl
    | ok rx =>
      simp only
      by_cases hz : c.delay_ms = 0
      · rw [if_pos hz, key_scan_write_other _ _ _ hc.1 hc.2]
        exact ih hcs _
      · rw [if_neg hz, key_scan_write_other _ _ _ hc.1 hc.2]
        simp only [key_scan]
        exact ih hcs _

theorem init_cmds_no_keys (k : Kernel) :
    ∀ c ∈ shoreline_init_cmds k, c.cmd ≠ test_key_on_f0 ∧ c.cmd ≠ test_key_off_f0 := by
  intro c hc
  simp only [shoreline_init_cmds, List.mem_cons, List.mem_singleton, List.not_mem_nil,
    or_false] at hc
  rcases hc with h | h | h | h | h | h <;> subst h <;>
    simp [EXYNOS_DSI_CMD_SEQ, EXYNOS_DSI_CMD_SEQ_DELAY, EXYNOS_DSI_CMD0, freq_update,
      test_key_on_f0, test_key_off_f0]

/-- The context in which `shoreline_enable` sends the LHBM location set. -/
theorem enable_before_location_eq (k : Kernel) (ctx : exynos_panel) (pmode : exynos_panel_mode) :
    enable_before_location k ctx pmode =
      { ctx with log := ctx.log ++
          ([.reset] ++ cmd_set_sent ctx.dsi (ctx.log.length + 1) (shoreline_init_cmds k) ++
            (if k.drm_mode_vrefresh pmode.mode ≠ 60 ∧ k.drm_mode_vrefresh pmode.mode ≠ 120 then []
             else [.write [0x60, if k.drm_mode_vrefresh pmode.mode = 120 then 0x00 else 0x08, 0x00],
                   .write freq_update]) ++
            lhbm_gamma_write_events ctx) } := by
  unfold enable_before_location
  simp only [exynos_panel_reset, exynos_panel.record, send_cmd_set_sent_with,
    change_frequency_eq, lhbm_gamma_write_eq, lhbm_gamma_write_events_with_log,
    List.length_append, List.length_singleton, List.append_assoc]

/-- Every write that the sequencer sends before its last entry was accepted. -/
theorem cmd_set_sent_earlier_accepted (dsi : Nat → dsi_reply) (cs : List exynos_dsi_cmd)
    (n i : Nat) (d : List Nat)
    (hi : (cmd_set_sent dsi n cs)[i]? = some (.write d))
    (hlt : i + 1 < (cmd_set_sent dsi n cs).length) :
    dsi (n + i) ≠ .io_error := by
  induction cs generalizing n i with
  | nil => simp [cmd_set_sent] at hlt
  | cons c cs ih =>
    unfold cmd_set_sent at hi hlt
    cases hn : dsi n with
    | io_error =>
      rw [hn] at hlt
      simp at hlt
    | ok rx =>
      rw [hn] at hi hlt
      simp only at hi hlt
      by_cases hz : c.delay_ms = 0
      · rw [if_pos hz] at hi hlt
        cases i with
        | zero =>
          rw [Nat.add_zero, hn]
          exact fun h => dsi_reply.noConfusion h
        | succ j =>
          simp only [List.getElem?_cons_succ, List.length_cons] at hi hlt
          have := ih (n + 1) j hi (by omega)
          rwa [show n + (j + 1) = n + 1 + j by omega]
      · rw [if_neg hz] at hi hlt
        cases i with
        | zero =>
          rw [Nat.add_zero, hn]
          exact fun h => dsi_reply.noConfusion h
        | succ j =>
          cases j with
          | zero => simp at hi
          | succ j2 =>
            simp only [List.getElem?_cons_succ, List.length_cons] at hi hlt
            have := ih (n + 2) j2 hi (by omega)
            rwa [show n + (j2 + 1 + 1) = n + 2 + j2 by omega]

/-- The sequencer sends the whole set, or stops on a write that failed. -/
theorem cmd_set_sent_cut (dsi : Nat → dsi_reply) (cs : List exynos_dsi_cmd) (n : Nat) :
    cmd_set_sent dsi n cs = cmd_set_events cs ∨
      ∃ d, (cmd_set_sent dsi n cs).getLast? = some (.write d) ∧
        dsi (n + ((cmd_set_sent dsi n cs).length - 1)) = .io_error := by
  induction cs generalizing n with
  | nil => exact Or.inl rfl
  | cons c cs ih =>
    unfold cmd_set_sent cmd_set_events
    cases hn : dsi n with
    | io_error =>
      right
      exact ⟨c.cmd, rfl, by simpa using hn⟩
    | ok rx =>
      simp only
      by_cases hz : c.delay_ms = 0
      · rw [if_pos hz, if_pos hz]
        rcases ih (n + 1) with h | ⟨d, hd, hf⟩
        · left
          rw [h]
          rfl
        · right
          have hne : cmd_set_sent dsi (n + 1) cs ≠ [] := by
            intro hc
            rw [hc] at hd
            simp at hd
          have hlen : 0 < (cmd_set_sent dsi (n + 1) cs).length := List.length_pos.mpr hne
          refine ⟨d, ?_, ?_⟩
          · rw [List.getLast?_cons, hd]
            rfl
          · rw [List.length_cons]
            rw [show n + ((cmd_set_sent dsi (n + 1) cs).length + 1 - 1) =
              n + 1 + ((cmd_set_sent dsi (n + 1) cs).length - 1) by omega]
            exact hf
      · rw [if_neg hz, if_neg hz]
        rcases ih (n + 2) with h | ⟨d, hd, hf⟩
        · left
          rw [h]
          rfl
        · right
          have hne : cmd_set_sent dsi (n + 2) cs ≠ [] := by
            intro hc
            rw [hc] at hd
            simp at hd
          have hlen : 0 < (cmd_set_sent dsi (n + 2) cs).length := List.length_pos.mpr hne
          refine ⟨d, ?_, ?_⟩
          · rw [List.getLast?_cons_cons, List.getLast?_cons, hd]
            rfl
          · rw [List.length_cons, List.length_cons]
            rw [show n + ((cmd_set_sent dsi (n + 2) cs).length + 1 + 1 - 1) =
              n + 2 + ((cmd_set_sent dsi (n + 2) cs).length - 1) by omega]
            exact hf

/-- The whole effect of `shoreline_enable` with a current mode, on any bus. -/
theorem enable_eq_events (k : Kernel) (ctx : exynos_panel) (pmode : exynos_panel_mode)
    (hmode : ctx.current_mode = some pmode) :
    shoreline_enable k ctx =
      ({ ctx with enabled := true, log := ctx.log ++ shoreline_enable_events k ctx pmode },
       .ok ()) := by
  unfold shoreline_enable shoreline_enable_events
  rw [hmode]
  simp only [exynos_panel_reset, exynos_panel.record, send_cmd_set_sent_with,
    change_frequency_eq, lhbm_gamma_write_eq, lhbm_gamma_write_events_with_log,
    exynos_dcs_compression_mode, EXYNOS_PPS_LONG_WRITE, shoreline_update_wrctrld,
    write_seq_eq, exynos_panel_set_lp_mode, wrctrld_val_with_log,
    List.length_append, List.length_singleton, List.length_cons, List.length_nil]
  by_cases hlp : pmode.exynos_mode.is_lp_mode = true <;>
    by_cases h60 : k.drm_mode_vrefresh pmode.mode = 60 <;>
    by_cases h120 : k.drm_mode_vrefresh pmode.mode = 120 <;>
    simp [hlp, h60, h120, hmode, freq_update, List.append_assoc, Nat.add_assoc]

/-- The part of the LHBM location set that the sequencer sends closes its
bracket exactly when it is the whole set. -/
theorem location_sent_scan (dsi : Nat → dsi_reply) (n : Nat) :
    key_scan false (cmd_set_sent dsi n shoreline_lhbm_location_cmds) = some false ↔
      cmd_set_sent dsi n shoreline_lhbm_location_cmds =
        cmd_set_events shoreline_lhbm_location_cmds := by
  simp only [shoreline_lhbm_location_cmds, EXYNOS_DSI_CMD0, EXYNOS_DSI_CMD_SEQ, cmd_set_sent,
    cmd_set_events, if_true]
  cases dsi n <;> cases dsi (n + 1) <;> cases dsi (n + 1 + 1) <;>
    cases dsi (n + 1 + 1 + 1) <;> cases dsi (n + 1 + 1 + 1 + 1) <;>
    simp [key_scan, test_key_on_f0, test_key_off_f0]

/-- The sequencer sends the whole LHBM location set exactly when the bus accepts
the first four of its five writes: a failure of the fifth, the lock write, is
met after that write has been put on the bus. -/
theorem location_sent_whole_iff (dsi : Nat → dsi_reply) (n : Nat) :
    cmd_set_sent dsi n shoreline_lhbm_location_cmds =
        cmd_set_events shoreline_lhbm_location_cmds ↔
      ∀ j, j < 4 → dsi (n + j) ≠ .io_error := by
  have hall : (∀ j, j < 4 → dsi (n + j) ≠ .io_error) ↔
      (dsi n ≠ .io_error ∧ dsi (n + 1) ≠ .io_error ∧ dsi (n + 1 + 1) ≠ .io_error ∧
        dsi (n + 1 + 1 + 1) ≠ .io_error) := by
    constructor
    · intro h
      exact ⟨h 0 (by omega), h 1 (by omega), h 2 (by omega), h 3 (by omega)⟩
    · rintro ⟨h0, h1, h2, h3⟩ j hj
      obtain rfl | rfl | rfl | rfl : j = 0 ∨ j = 1 ∨ j = 2 ∨ j = 3 := by omega
      · exact h0
      · exact h1
      · exact h2
      · exact h3
  rw [hall]
  simp only [shoreline_lhbm_location_cmds, EXYNOS_DSI_CMD0, EXYNOS_DSI_CMD_SEQ, cmd_set_sent,
    cmd_set_events, if_true]
  cases dsi n <;> cases dsi (n + 1) <;> cases dsi (n + 1 + 1) <;>
    cases dsi (n + 1 + 1 + 1) <;> cases dsi (n + 1 + 1 + 1 + 1) <;>
    simp

/-- On any bus `shoreline_enable` closes its brackets exactly when the sequencer
sends the whole LHBM location set. -/
theorem brackets_enable_iff (k : Kernel) (ctx : exynos_panel) (pmode : exynos_panel_mode)
    (hmode : ctx.current_mode = some pmode)
    (hhs : ctx.hs_cmd.length = LHBM_GAMMA_CMD_SIZE)
    (hns : ctx.ns_cmd.length = LHBM_GAMMA_CMD_SIZE) :
    key_scan false (issued ctx (shoreline_enable k ctx).1) = some false ↔
      cmd_set_sent ctx.dsi (enable_before_location k ctx pmode).log.length
          shoreline_lhbm_location_cmds =
        cmd_set_events shoreline_lhbm_location_cmds := by
  have hinit := key_scan_cmd_set_sent ctx.dsi (shoreline_init_cmds k) (init_cmds_no_keys k)
    (ctx.log.length + 1) false
  have hgamma := key_scan_gamma_write_events ctx hhs hns
  have hw := wrctrld_write_ne_keys k.MIPI_DCS_WRITE_CONTROL_DISPLAY (shoreline_wrctrld_val ctx)
  have hon := single_write_ne_keys k.MIPI_DCS_SET_DISPLAY_ON
  have hreset : key_scan false [panel_event.reset] = some false := rfl
  have hf : key_scan false
      (if k.drm_mode_vrefresh pmode.mode = 60 then
        [panel_event.write [0x60, 0x08, 0x00], panel_event.write [0xF7, 0x0F]]
       else if k.drm_mode_vrefresh pmode.mode = 120 then
        [panel_event.write [0x60, 0x00, 0x00], panel_event.write [0xF7, 0x0F]]
       else []) = some false := by
    split_ifs <;> decide
  have htail : ∀ s : Bool, key_scan s
      [panel_event.compression_mode 0x1, panel_event.pps_long_write PPS_SETTING,
       panel_event.write [k.MIPI_DCS_WRITE_CONTROL_DISPLAY, shoreline_wrctrld_val ctx],
       if pmode.exynos_mode.is_lp_mode then panel_event.set_lp_mode
       else panel_event.write [k.MIPI_DCS_SET_DISPLAY_ON]] = some s := by
    intro s
    cases pmode.exynos_mode.is_lp_mode <;> simp [key_scan, hw, hon]
  have hidx : (enable_before_location k ctx pmode).log.length =
      ctx.log.length + 1 +
        (cmd_set_sent ctx.dsi (ctx.log.length + 1) (shoreline_init_cmds k)).length +
        (if k.drm_mode_vrefresh pmode.mode = 60 then
          [panel_event.write [0x60, 0x08, 0x00], panel_event.write [0xF7, 0x0F]]
         else if k.drm_mode_vrefresh pmode.mode = 120 then
          [panel_event.write [0x60, 0x00, 0x00], panel_event.write [0xF7, 0x0F]]
         else []).length +
        (lhbm_gamma_write_events ctx).length := by
    rw [enable_before_location_eq]
    by_cases h60 : k.drm_mode_vrefresh pmode.mode = 60
    · simp [h60, Nat.add_assoc]
      omega
    · by_cases h120 : k.drm_mode_vrefresh pmode.mode = 120
      · simp [h120, Nat.add_assoc]
        omega
      · simp [h60, h120, Nat.add_assoc]
        omega
  rw [hidx, enable_eq_events k ctx pmode hmode, ← location_sent_scan]
  simp only [issued, List.drop_left, shoreline_enable_events]
  simp only [key_scan_append, hreset, hinit, hf, hgamma, htail, Option.some_bind,
    Option.bind_some]

/-- On any bus `shoreline_enable` closes its brackets exactly when the bus
accepts the first four writes of the LHBM location set. -/
theorem brackets_enable_bus (k : Kernel) (ctx : exynos_panel) (pmode : exynos_panel_mode)
    (hmode : ctx.current_mode = some pmode)
    (hhs : ctx.hs_cmd.length = LHBM_GAMMA_CMD_SIZE)
    (hns : ctx.ns_cmd.length = LHBM_GAMMA_CMD_SIZE) :
    key_scan false (issued ctx (shoreline_enable k ctx).1) = some false ↔
      ∀ j, j < 4 →
        ctx.dsi ((enable_before_location k ctx pmode).log.length + j) ≠ .io_error := by
  rw [brackets_enable_iff k ctx pmode hmode hhs hns, location_sent_whole_iff]

/-! ## Theorems -/

/-- C1: for every TE2 timing with `rising_edge ≤ falling_edge ≤ 4095` the encoder
stores three bytes `b0 b1 b2` with `rising = ((b0 >> 4) << 8) | b1` and
`falling = rising + (((b0 & 0xF) << 8) | b2)`: decoding the encoding gives the
timing back. -/
theorem te2_setting_roundtrip (r f s0 s1 s2 : Nat) (hrf : r ≤ f) (hf : f ≤ 4095) :
    ∃ b0 b1 b2,
      shoreline_get_te2_setting (some ⟨r, f⟩) (some [s0, s1, s2]) = some [b0, b1, b2] ∧
      b0 < 256 ∧ b1 < 256 ∧ b2 < 256 ∧
      ((b0 >>> 4) <<< 8) ||| b1 = r ∧
      (((b0 >>> 4) <<< 8) ||| b1) + (((b0 &&& 0xF) <<< 8) ||| b2) = f := by
  have hr32 : u32 r = r := by unfold u32; omega
  have hf32 : u32 f = f := by unfold u32; omega
  have hsub : u32_sub f r = f - r := u32_sub_of_le f r hrf (by omega)
  refine ⟨_, _, _, get_te2_setting_bytes r f s0 s1 s2, ?_, ?_, ?_, ?_, ?_⟩
  · omega
  · omega
  · omega
  · rw [hr32, hf32, hsub, shr_4, shl8_or _ _ (by omega)]
    omega
  · rw [hr32, hf32, hsub, shr_4, and_0xF, shl8_or _ _ (by omega), shl8_or _ _ (by omega)]
    omega

theorem te2_setting_roundtrip_witness :
    ∃ b0 b1 b2,
      shoreline_get_te2_setting (some ⟨300, 4095⟩) (some [0, 0, 0x30]) = some [b0, b1, b2] ∧
      b0 < 256 ∧ b1 < 256 ∧ b2 < 256 ∧
      ((b0 >>> 4) <<< 8) ||| b1 = 300 ∧
      (((b0 >>> 4) <<< 8) ||| b1) + (((b0 &&& 0xF) <<< 8) ||| b2) = 4095 :=
  te2_setting_roundtrip 300 4095 0 0 0x30 (by decide) (by decide)

/-- C2 (counterexample): at `rising_edge = 1`, `falling_edge = 0` the encoder
rejects nothing: it stores `0x0F 0x01 0xFF`, whose width bits are those of the
wrapped difference `0 - 1 = 0xFFFFFFFF`. -/
theorem te2_setting_wraps_at_1_0 :
    shoreline_get_te2_setting (some ⟨1, 0⟩) (some [0x00, 0x00, 0x30]) =
        some [0x0F, 0x01, 0xFF] ∧
      shoreline_get_te2_setting (some ⟨1, 0⟩) (some [0x00, 0x00, 0x30]) ≠
        some [0x00, 0x00, 0x30] ∧
      u32_sub 0 1 = 0xFFFFFFFF ∧
      (u32_sub 0 1 >>> 8) &&& 0xF = 0x0F ∧ u32_sub 0 1 &&& 0xFF = 0xFF := by
  decide

/-- C2 (amended): for every TE2 timing with `falling_edge < rising_edge` (both
`u32`) the encoder returns normally, without an error, and stores the encoding
of `rising` and of the difference wrapped modulo `2 ^ 32`,
`falling + 2 ^ 32 - rising`. -/
theorem te2_setting_wrapped_difference (r f s0 s1 s2 : Nat) (hfr : f < r) (hr : r < 2 ^ 32) :
    shoreline_get_te2_setting (some ⟨r, f⟩) (some [s0, s1, s2]) =
      some [16 * (r / 256 % 16) + (f + 2 ^ 32 - r) / 256 % 16,
            r % 256,
            (f + 2 ^ 32 - r) % 256] := by
  have hr32 : u32 r = r := by unfold u32; omega
  have hf32 : u32 f = f := by unfold u32; omega
  rw [get_te2_setting_bytes, hr32, hf32, u32_sub_of_lt f r hfr hr]

theorem te2_setting_wrapped_difference_witness :
    shoreline_get_te2_setting (some ⟨48, 16⟩) (some [0x00, 0x00, 0x30]) =
      some [16 * (48 / 256 % 16) + (16 + 2 ^ 32 - 48) / 256 % 16,
            48 % 256,
            (16 + 2 ^ 32 - 48) % 256] :=
  te2_setting_wrapped_difference 48 16 0x00 0x00 0x30 (by decide) (by decide)

/-- C3: `shoreline_update_wrctrld` writes the control-display opcode followed by
one byte.  The byte is `0x20` when high brightness, local high brightness and
dimming are all off; it has bit `0x20` set in every case; and changing one flag
changes the bits of that flag only: `0x08` for dimming, `0x10` for local high
brightness, `0xC0` for high brightness. -/
theorem wrctrld_flags_independent (k : Kernel) (ctx : exynos_panel) :
    shoreline_update_wrctrld k ctx =
        ctx.record (.write [k.MIPI_DCS_WRITE_CONTROL_DISPLAY, shoreline_wrctrld_val ctx]) ∧
      shoreline_wrctrld_val
          { ctx with hbm_mode := .HBM_OFF, local_hbm_enabled := false, dimming_on := false } =
        0x20 ∧
      shoreline_wrctrld_val ctx &&& 0x20 = 0x20 ∧
      shoreline_wrctrld_val { ctx with dimming_on := !ctx.dimming_on } ^^^
          shoreline_wrctrld_val ctx = 0x08 ∧
      shoreline_wrctrld_val { ctx with local_hbm_enabled := !ctx.local_hbm_enabled } ^^^
          shoreline_wrctrld_val ctx = 0x10 ∧
      (∀ mode : exynos_hbm_mode,
        shoreline_wrctrld_val { ctx with hbm_mode := mode } ^^^ shoreline_wrctrld_val ctx =
          if IS_HBM_ON mode = IS_HBM_ON ctx.hbm_mode then 0 else 0xC0) := by
  have hb := wrctrld_sum_bits (IS_HBM_ON ctx.hbm_mode) ctx.local_hbm_enabled ctx.dimming_on
  refine ⟨write_seq_eq _ _, rfl, ?_, ?_, ?_, ?_⟩
  · rw [wrctrld_val_eq]
    exact hb.1
  · rw [wrctrld_val_eq, wrctrld_val_eq]
    exact hb.2.1
  · rw [wrctrld_val_eq, wrctrld_val_eq]
    exact hb.2.2.1
  · intro mode
    rw [wrctrld_val_eq, wrctrld_val_eq]
    exact hb.2.2.2 (IS_HBM_ON mode)

/-- C4: with a current mode of refresh rate `vrefresh`, `shoreline_set_op_hz`
succeeds (returns 0 with `op_hz = hz` stored) if and only if `hz` is 60 or 120
and `hz ≥ vrefresh`; in every other case it returns `-EINVAL` and the context,
`op_hz` and log included, is unchanged. -/
theorem set_op_hz_validation (k : Kernel) (ctx : exynos_panel) (pmode : exynos_panel_mode)
    (hz : Nat) (hmode : ctx.current_mode = some pmode) :
    ((∃ ctx', shoreline_set_op_hz k ctx hz = some (ctx', .ok ()) ∧ ctx'.op_hz = hz) ↔
        ((hz = 60 ∨ hz = 120) ∧ k.drm_mode_vrefresh pmode.mode ≤ hz)) ∧
      (¬((hz = 60 ∨ hz = 120) ∧ k.drm_mode_vrefresh pmode.mode ≤ hz) →
        shoreline_set_op_hz k ctx hz = some (ctx, .error .EINVAL)) := by
  have hbad : ¬((hz = 60 ∨ hz = 120) ∧ k.drm_mode_vrefresh pmode.mode ≤ hz) →
      shoreline_set_op_hz k ctx hz = some (ctx, .error .EINVAL) := by
    intro hc
    unfold shoreline_set_op_hz
    rw [hmode]
    simp only
    rw [if_pos (by omega)]
  refine ⟨⟨?_, ?_⟩, hbad⟩
  · rintro ⟨ctx', hret, -⟩
    by_contra hc
    rw [hbad hc] at hret
    simp at hret
  · intro hc
    unfold shoreline_set_op_hz
    rw [hmode]
    simp only
    rw [if_neg (by omega)]
    refine ⟨_, rfl, ?_⟩
    split_ifs
    · exact send_cmd_set_op_hz _ _
    · exact send_cmd_set_op_hz _ _
    · exact send_cmd_set_op_hz _ _

theorem set_op_hz_validation_witness :
    sample_panel_60.current_mode = some shoreline_mode_60 ∧
    ((∃ ctx', shoreline_set_op_hz sample_kernel sample_panel_60 120 = some (ctx', .ok ()) ∧
          ctx'.op_hz = 120) ↔
        ((120 = 60 ∨ 120 = 120) ∧ sample_kernel.drm_mode_vrefresh shoreline_mode_60.mode ≤ 120)) ∧
      (¬((120 = 60 ∨ 120 = 120) ∧
          sample_kernel.drm_mode_vrefresh shoreline_mode_60.mode ≤ 120) →
        shoreline_set_op_hz sample_kernel sample_panel_60 120 =
          some (sample_panel_60, .error .EINVAL)) :=
  ⟨rfl, set_op_hz_validation sample_kernel sample_panel_60 shoreline_mode_60 120 rfl⟩

/-- The four requests of the specification, on the mode table of the driver:
59 at 60 Hz fails, 60 at 60 Hz succeeds, 60 at 120 Hz fails, 120 at 60 Hz
succeeds. -/
theorem set_op_hz_examples :
    sample_kernel.drm_mode_vrefresh shoreline_mode_60.mode = 60 ∧
    sample_kernel.drm_mode_vrefresh shoreline_mode_120.mode = 120 ∧
    (shoreline_set_op_hz sample_kernel sample_panel_60 59).map Prod.snd =
      some (.error .EINVAL) ∧
    (shoreline_set_op_hz sample_kernel sample_panel_60 60).map Prod.snd = some (.ok ()) ∧
    (shoreline_set_op_hz sample_kernel sample_panel_120 60).map Prod.snd =
      some (.error .EINVAL) ∧
    (shoreline_set_op_hz sample_kernel sample_panel_60 120).map Prod.snd = some (.ok ()) := by
  decide

/-- C5: for every `vrefresh > 0` the settle delay `mult_frac(1000, 1020, vrefresh)`
equals the quotient `1000 * 1020 / vrefresh`, no intermediate value reaching
`2 ^ 32`; it is 17000 for 60 and 8500 for 120; and it is the delay that
`shoreline_set_nolp_mode` computes: on an enabled panel whose target mode has
refresh rate `vrefresh` the function sleeps `1000 * 1020 / vrefresh`
microseconds (upper bound 10 more) between the frequency change and display
on. -/
theorem settle_delay_quotient (v : Nat) (hv : 0 < v) :
    mult_frac 1000 1020 v = some (1000 * 1020 / v) ∧
      (1000 / v) * 1020 < 2 ^ 32 ∧ (1000 % v) * 1020 < 2 ^ 32 ∧
      (1000 / v) * 1020 + (1000 % v) * 1020 / v < 2 ^ 32 ∧
      mult_frac 1000 1020 60 = some 17000 ∧ mult_frac 1000 1020 120 = some 8500 ∧
      (∀ (k : Kernel) (ctx : exynos_panel) (pmode : exynos_panel_mode),
        k.drm_mode_vrefresh pmode.mode = v → ctx.enabled = true →
        shoreline_set_nolp_mode k ctx pmode =
          some { ctx with log := ctx.log ++
            ([.write [k.MIPI_DCS_SET_DISPLAY_OFF],
              .write [0xF0, 0x5A, 0x5A],
              .write [k.MIPI_DCS_WRITE_CONTROL_DISPLAY, shoreline_wrctrld_val ctx],
              .write [0xF0, 0xA5, 0xA5]] ++
             (if v = 60 then [.write [0x60, 0x08, 0x00], .write [0xF7, 0x0F]]
              else if v = 120 then [.write [0x60, 0x00, 0x00], .write [0xF7, 0x0F]]
              else []) ++
             [.usleep_range (1000 * 1020 / v) (1000 * 1020 / v + 10),
              .write [k.MIPI_DCS_SET_DISPLAY_ON]]) }) := by
  obtain ⟨h1, h2, h3, h4⟩ := mult_frac_1000_1020 v hv
  refine ⟨h1, h2, h3, h4, by decide, by decide, ?_⟩
  intro k ctx pmode hvm hen
  subst hvm
  rw [set_nolp_mode_enabled k ctx pmode hv hen]
  by_cases h60 : k.drm_mode_vrefresh pmode.mode = 60
  · simp [h60, test_key_on_f0, test_key_off_f0, freq_update]
  · by_cases h120 : k.drm_mode_vrefresh pmode.mode = 120
    · simp [h120, test_key_on_f0, test_key_off_f0, freq_update]
    · simp [h60, h120, test_key_on_f0, test_key_off_f0]

theorem settle_delay_quotient_witness :
    0 < 60 ∧
    mult_frac 1000 1020 60 = some 17000 ∧
    sample_kernel.drm_mode_vrefresh shoreline_mode_60.mode = 60 ∧
    sample_panel_60_enabled.enabled = true ∧
    shoreline_set_nolp_mode sample_kernel sample_panel_60_enabled shoreline_mode_60 =
      some { sample_panel_60_enabled with log := sample_panel_60_enabled.log ++
        [.write [0x28],
         .write [0xF0, 0x5A, 0x5A],
         .write [0x53, 0x20],
         .write [0xF0, 0xA5, 0xA5],
         .write [0x60, 0x08, 0x00], .write [0xF7, 0x0F],
         .usleep_range 17000 17010,
         .write [0x29]] } :=
  ⟨by decide, (settle_delay_quotient 60 (by decide)).2.2.2.2.1, by decide, rfl,
    (settle_delay_quotient 60 (by decide)).2.2.2.2.2.2 sample_kernel sample_panel_60_enabled
      shoreline_mode_60 (by decide) rfl⟩

/-- C6: on a panel whose two calibration buffers are zeroed, when the read for
one refresh-mode family is short (its count is not 5) and the read for the
other family returns the 5 bytes `rx`, `shoreline_lhbm_gamma_read` leaves byte 0
of the short-read buffer at 0 and makes the other buffer `0x66` followed by the
5 bytes; the `shoreline_lhbm_gamma_write` that follows issues exactly: unlock,
the pointer select of the valid family, its 6-byte buffer, lock. -/
theorem lhbm_gamma_short_read (ctx : exynos_panel) (rx : List Nat)
    (hhs : ctx.hs_cmd = List.replicate LHBM_GAMMA_CMD_SIZE 0)
    (hns : ctx.ns_cmd = List.replicate LHBM_GAMMA_CMD_SIZE 0)
    (hrx : rx.length = 5) :
    ((ctx.dsi (ctx.log.length + 2)).read_count 5 ≠ .ok 5 →
      ctx.dsi (ctx.log.length + 4) = .ok rx →
        (shoreline_lhbm_gamma_read ctx).hs_cmd.getD 0 0 = 0 ∧
        (shoreline_lhbm_gamma_read ctx).ns_cmd = 0x66 :: rx ∧
        shoreline_lhbm_gamma_write (shoreline_lhbm_gamma_read ctx) =
          { shoreline_lhbm_gamma_read ctx with
            log := (shoreline_lhbm_gamma_read ctx).log ++
              [.write [0xF0, 0x5A, 0x5A], .write [0xB0, 0x03, 0xE6, 0x66],
               .write (0x66 :: rx), .write [0xF0, 0xA5, 0xA5]] }) ∧
    (ctx.dsi (ctx.log.length + 2) = .ok rx →
      (ctx.dsi (ctx.log.length + 4)).read_count 5 ≠ .ok 5 →
        (shoreline_lhbm_gamma_read ctx).hs_cmd = 0x66 :: rx ∧
        (shoreline_lhbm_gamma_read ctx).ns_cmd.getD 0 0 = 0 ∧
        shoreline_lhbm_gamma_write (shoreline_lhbm_gamma_read ctx) =
          { shoreline_lhbm_gamma_read ctx with
            log := (shoreline_lhbm_gamma_read ctx).log ++
              [.write [0xF0, 0x5A, 0x5A], .write [0xB0, 0x03, 0xD7, 0x66],
               .write (0x66 :: rx), .write [0xF0, 0xA5, 0xA5]] }) := by
  obtain ⟨a, b, c, d, e, rfl⟩ : ∃ a b c d e, rx = [a, b, c, d, e] := by
    match rx, hrx with
    | [a, b, c, d, e], _ => exact ⟨a, b, c, d, e, rfl⟩
  have hshort0 : ∀ r : dsi_reply, r.read_count 5 ≠ .ok 5 →
      (gamma_buffer_after r (List.replicate LHBM_GAMMA_CMD_SIZE 0)).getD 0 0 = 0 := by
    intro r hr
    have hr2 : ¬ r.read_count (LHBM_GAMMA_CMD_SIZE - 1) = .ok (LHBM_GAMMA_CMD_SIZE - 1) := hr
    rw [gamma_buffer_after_eq, if_neg hr2]
    rfl
  have hfull6 : gamma_buffer_after (.ok [a, b, c, d, e]) (List.replicate LHBM_GAMMA_CMD_SIZE 0) =
      [0x66, a, b, c, d, e] := rfl
  constructor
  · intro hshort hfull
    have h0 := hshort0 _ hshort
    rw [lhbm_gamma_write_eq, lhbm_gamma_read_eq]
    simp only [hfull, hhs, hns, hfull6, h0, lhbm_gamma_write_events]
    refine ⟨trivial, trivial, ?_⟩
    simp
  · intro hfull hshort
    have h0 := hshort0 _ hshort
    rw [lhbm_gamma_write_eq, lhbm_gamma_read_eq]
    simp only [hfull, hhs, hns, hfull6, h0, lhbm_gamma_write_events]
    refine ⟨trivial, trivial, ?_⟩
    simp

theorem lhbm_gamma_short_read_witness :
    ((shoreline_lhbm_gamma_read (shoreline_panel_probe dsi_short_hs)).hs_cmd.getD 0 0 = 0 ∧
      (shoreline_lhbm_gamma_read (shoreline_panel_probe dsi_short_hs)).ns_cmd =
        0x66 :: [9, 8, 7, 6, 5] ∧
      shoreline_lhbm_gamma_write (shoreline_lhbm_gamma_read (shoreline_panel_probe dsi_short_hs)) =
        { shoreline_lhbm_gamma_read (shoreline_panel_probe dsi_short_hs) with
          log := (shoreline_lhbm_gamma_read (shoreline_panel_probe dsi_short_hs)).log ++
            [.write [0xF0, 0x5A, 0x5A], .write [0xB0, 0x03, 0xE6, 0x66],
             .write (0x66 :: [9, 8, 7, 6, 5]), .write [0xF0, 0xA5, 0xA5]] }) ∧
    ((shoreline_lhbm_gamma_read (shoreline_panel_probe dsi_short_ns)).hs_cmd =
        0x66 :: [9, 8, 7, 6, 5] ∧
      (shoreline_lhbm_gamma_read (shoreline_panel_probe dsi_short_ns)).ns_cmd.getD 0 0 = 0 ∧
      shoreline_lhbm_gamma_write (shoreline_lhbm_gamma_read (shoreline_panel_probe dsi_short_ns)) =
        { shoreline_lhbm_gamma_read (shoreline_panel_probe dsi_short_ns) with
          log := (shoreline_lhbm_gamma_read (shoreline_panel_probe dsi_short_ns)).log ++
            [.write [0xF0, 0x5A, 0x5A], .write [0xB0, 0x03, 0xD7, 0x66],
             .write (0x66 :: [9, 8, 7, 6, 5]), .write [0xF0, 0xA5, 0xA5]] }) :=
  ⟨(lhbm_gamma_short_read (shoreline_panel_probe dsi_short_hs) [9, 8, 7, 6, 5] rfl rfl rfl).1
      (by decide) rfl,
   (lhbm_gamma_short_read (shoreline_panel_probe dsi_short_ns) [9, 8, 7, 6, 5] rfl rfl rfl).2
      rfl (by decide)⟩

/-- C7: on a panel whose current mode has refresh rate 60 and is not a
low-power mode, on a bus that accepts every write, `shoreline_enable` returns 0,
sets `enabled` and appends `shoreline_enable_60_events` to the log: reset, the
init set (exit sleep, tear on, column and page address, `0x60 0x08 0x00`,
`0xF7 0x0F`), the frequency select and strobe of `shoreline_change_frequency`,
the calibration reapply (empty exactly when both buffers are invalid), the LHBM
location set, compression mode, the PPS block, the control word, display on.
The sequence of the specification is a subsequence of it, display on is its
last entry and the low-power path is not in it. -/
theorem enable_60hz_sequence (k : Kernel) (ctx : exynos_panel) (pmode : exynos_panel_mode)
    (hmode : ctx.current_mode = some pmode)
    (hv : k.drm_mode_vrefresh pmode.mode = 60)
    (hlp : pmode.exynos_mode.is_lp_mode = false)
    (hdsi : ∀ n, ctx.dsi n ≠ .io_error) :
    shoreline_enable k ctx =
        ({ ctx with enabled := true, log := ctx.log ++ shoreline_enable_60_events k ctx },
         .ok ()) ∧
      List.Sublist (spec_enable_60_sequence k ctx) (shoreline_enable_60_events k ctx) ∧
      (shoreline_enable_60_events k ctx).getLast? =
        some (.write [k.MIPI_DCS_SET_DISPLAY_ON]) ∧
      panel_event.set_lp_mode ∉ shoreline_enable_60_events k ctx ∧
      (lhbm_gamma_write_events ctx = [] ↔
        (ctx.hs_cmd.getD 0 0 = 0 ∧ ctx.ns_cmd.getD 0 0 = 0)) := by
  refine ⟨?_, ?_, ?_, ?_, ?_⟩
  · unfold shoreline_enable
    rw [hmode]
    simp only [hlp, hv, exynos_panel_reset, exynos_panel.record,
      send_cmd_set_accepting_with _ _ _ hdsi, change_frequency_eq, lhbm_gamma_write_eq,
      lhbm_gamma_write_events_with_log]
    simp [exynos_dcs_compression_mode, EXYNOS_PPS_LONG_WRITE, shoreline_update_wrctrld,
      write_seq_eq, exynos_panel.record, wrctrld_val_with_log, cmd_set_events,
      shoreline_init_cmds, shoreline_lhbm_location_cmds, EXYNOS_DSI_CMD_SEQ,
      EXYNOS_DSI_CMD_SEQ_DELAY, EXYNOS_DSI_CMD0, freq_update, test_key_on_f0, test_key_off_f0,
      List.append_assoc, hmode, shoreline_enable_60_events]
    rfl
  · unfold spec_enable_60_sequence shoreline_enable_60_events
    refine List.Sublist.append (List.Sublist.append ?_ (List.Sublist.refl _)) ?_
    · exact .cons _ (.cons₂ _ (.cons _ (.cons₂ _ (.cons₂ _ (.cons₂ _ (.cons₂ _ (.cons₂ _
        (.cons _ (.cons _ .slnil)))))))))
    · exact .cons₂ _ (.cons₂ _ (.cons₂ _ (.cons₂ _ (.cons₂ _ (.cons₂ _ (.cons _
        (.cons₂ _ (.cons₂ _ .slnil))))))))
  · unfold shoreline_enable_60_events
    rw [List.getLast?_append]
    rfl
  · unfold shoreline_enable_60_events lhbm_gamma_write_events
    split_ifs <;> simp
  · unfold lhbm_gamma_write_events
    by_cases h : ctx.hs_cmd.getD 0 0 = 0 ∧ ctx.ns_cmd.getD 0 0 = 0
    · rw [if_pos h]
      exact ⟨fun _ => h, fun _ => rfl⟩
    · rw [if_neg h]
      constructor
      · intro hc
        simp at hc
      · intro hc
        exact absurd hc h

theorem enable_60hz_sequence_witness :
    sample_panel_60.current_mode = some shoreline_mode_60 ∧
    sample_kernel.drm_mode_vrefresh shoreline_mode_60.mode = 60 ∧
    shoreline_mode_60.exynos_mode.is_lp_mode = false ∧
    shoreline_enable sample_kernel sample_panel_60 =
      ({ sample_panel_60 with
          enabled := true,
          log := sample_panel_60.log ++ shoreline_enable_60_events sample_kernel sample_panel_60 },
       .ok ()) :=
  ⟨rfl, by decide, rfl,
    (enable_60hz_sequence sample_kernel sample_panel_60 shoreline_mode_60 rfl (by decide) rfl
      (fun _ h => dsi_reply.noConfusion h)).1⟩

/-- C9: for every mode in effect and every requested mode,
`shoreline_set_hbm_mode` stores the requested mode; it issues the control word
exactly when the on/off aspect changes, preceded by the HBM-enable sequence
exactly when the requested mode is on; after that it issues unlock,
`0xB0 0x03 0x8F`, `0x8F` with `0x05` (requested mode on with IRC off) or `0x25`
(otherwise), lock, exactly when the IRC-off aspect changes.  Requesting the
mode in effect issues nothing. -/
theorem set_hbm_mode_sequence (k : Kernel) (ctx : exynos_panel) (mode : exynos_hbm_mode) :
    shoreline_set_hbm_mode k ctx mode =
        { ctx with
          hbm_mode := mode,
          log := ctx.log ++
            ((if IS_HBM_ON ctx.hbm_mode ≠ IS_HBM_ON mode then
                (if IS_HBM_ON mode then
                  [.write [0xF0, 0x5A, 0x5A],
                   .write [0xB0, 0x28, 0xF2],
                   .write [0xF2, 0xCC],
                   .write [0xB0, 0x02, 0x33, 0x65],
                   .write [0x65, 0x01],
                   .write [0xB0, 0x00, 0x28, 0xF2],
                   .write [0xF2, 0xC4],
                   .write [0xF0, 0xA5, 0xA5]]
                 else []) ++
                [.write [k.MIPI_DCS_WRITE_CONTROL_DISPLAY,
                  shoreline_wrctrld_val { ctx with hbm_mode := mode }]]
              else []) ++
             (if IS_HBM_ON_IRC_OFF ctx.hbm_mode ≠ IS_HBM_ON_IRC_OFF mode then
                [.write [0xF0, 0x5A, 0x5A],
                 .write [0xB0, 0x03, 0x8F],
                 .write [0x8F, if IS_HBM_ON_IRC_OFF mode then 0x05 else 0x25],
                 .write [0xF0, 0xA5, 0xA5]]
              else [])) } ∧
      shoreline_set_hbm_mode k ctx ctx.hbm_mode = ctx := by
  obtain ⟨en, cm, op, hbm, lh, dim, rev, te2, hs, ns, dsi, log⟩ := ctx
  constructor
  · cases hbm <;> cases mode <;>
      simp [shoreline_set_hbm_mode, IS_HBM_ON, IS_HBM_ON_IRC_OFF, write_seq_eq, write_table_eq,
        exynos_panel.record, shoreline_update_wrctrld, test_key_on_f0, test_key_off_f0] <;>
      rfl
  · cases hbm <;>
      simp [shoreline_set_hbm_mode, IS_HBM_ON, IS_HBM_ON_IRC_OFF]

/-- C10: `shoreline_change_frequency` issues nothing for a refresh rate other
than 60 and 120; for 60 it issues `0x60 0x08 0x00` then `0xF7 0x0F`, for 120
`0x60 0x00 0x00` then `0xF7 0x0F`, and nothing else.  `shoreline_mode_set` is
this call on an enabled panel and nothing on a panel that is not enabled. -/
theorem change_frequency_sequence (k : Kernel) (ctx : exynos_panel) (vrefresh : Nat)
    (pmode : exynos_panel_mode) :
    shoreline_change_frequency ctx vrefresh =
        { ctx with log := ctx.log ++
            if vrefresh = 60 then [.write [0x60, 0x08, 0x00], .write [0xF7, 0x0F]]
            else if vrefresh = 120 then [.write [0x60, 0x00, 0x00], .write [0xF7, 0x0F]]
            else [] } ∧
      shoreline_mode_set k ctx pmode =
        if ctx.enabled = false then ctx
        else shoreline_change_frequency ctx (k.drm_mode_vrefresh pmode.mode) := by
  refine ⟨?_, rfl⟩
  rw [change_frequency_eq]
  by_cases h60 : vrefresh = 60
  · simp [h60, freq_update]
  · by_cases h120 : vrefresh = 120
    · simp [h120, freq_update]
    · simp [h60, h120]

/-- C13: when `shoreline_set_op_hz` accepts `hz = 120` (the refresh rate of the
current mode is at most 120, so 60 and 120 are covered), on a bus that accepts
every write it issues `0x60 0x08 0x00` then `0xF7 0x0F` whatever the refresh
rate is: the high-speed-60 and the high-speed-120 command sets are the same
list.  The payload `0x08 0x00` differs from the `0x00 0x00` that
`shoreline_change_frequency` writes for 120 Hz. -/
theorem set_op_hz_120_payload (k : Kernel) (ctx : exynos_panel) (pmode : exynos_panel_mode)
    (hmode : ctx.current_mode = some pmode)
    (hv : k.drm_mode_vrefresh pmode.mode ≤ 120)
    (hdsi : ∀ n, ctx.dsi n ≠ .io_error) :
    shoreline_set_op_hz k ctx 120 =
        some ({ ctx with
                op_hz := 120,
                log := ctx.log ++ [.write [0x60, 0x08, 0x00], .write [0xF7, 0x0F]] },
              .ok ()) ∧
      shoreline_mode_hs_60_cmds = shoreline_mode_hs_120_cmds ∧
      shoreline_change_frequency ctx 120 =
        { ctx with log := ctx.log ++ [.write [0x60, 0x00, 0x00], .write [0xF7, 0x0F]] } ∧
      ([0x60, 0x08, 0x00] : List Nat) ≠ [0x60, 0x00, 0x00] := by
  refine ⟨?_, rfl, ?_, by decide⟩
  · obtain ⟨en, cm, op, hbm, lh, dim, rev, te2, hs, ns, dsi, log⟩ := ctx
    simp only at hmode hdsi
    subst hmode
    have h60 := send_cmd_set_accepting shoreline_mode_hs_60_cmds
      ⟨en, some pmode, 120, hbm, lh, dim, rev, te2, hs, ns, dsi, log⟩ hdsi
    have h120 := send_cmd_set_accepting shoreline_mode_hs_120_cmds
      ⟨en, some pmode, 120, hbm, lh, dim, rev, te2, hs, ns, dsi, log⟩ hdsi
    unfold shoreline_set_op_hz
    simp only
    rw [if_neg (by omega), if_neg (by decide)]
    by_cases hv60 : k.drm_mode_vrefresh pmode.mode = 60
    · rw [if_pos hv60, h60]
      rfl
    · rw [if_neg hv60, h120]
      rfl
  · rw [change_frequency_eq]
    rfl

theorem set_op_hz_120_payload_witness :
    sample_panel_60.current_mode = some shoreline_mode_60 ∧
    sample_kernel.drm_mode_vrefresh shoreline_mode_60.mode ≤ 120 ∧
    shoreline_set_op_hz sample_kernel sample_panel_60 120 =
      some ({ sample_panel_60 with
              op_hz := 120,
              log := sample_panel_60.log ++ [.write [0x60, 0x08, 0x00], .write [0xF7, 0x0F]] },
            .ok ()) :=
  ⟨rfl, by decide,
    (set_op_hz_120_payload sample_kernel sample_panel_60 shoreline_mode_60 rfl (by decide)
      (fun _ h => dsi_reply.noConfusion h)).1⟩

/-- C11 (counterexample): on a bus that fails transfer number 8, which is the
frequency-select write of `shoreline_change_frequency`, `shoreline_enable`
issues the ten entries that follow it as on a sound bus, display on included,
and returns 0. -/
theorem enable_goes_on_after_failed_write :
    (sample_panel_60_fail 8).dsi 8 = .io_error ∧
    ((shoreline_enable sample_kernel (sample_panel_60_fail 8)).1.log.drop 8).head? =
      some (.write [0x60, 0x08, 0x00]) ∧
    (shoreline_enable sample_kernel (sample_panel_60_fail 8)).1.log.drop 9 =
      [.write [0xF7, 0x0F],
       .write [0xF0, 0x5A, 0x5A],
       .write [0xB0, 0x00, 0x09, 0x6D],
       .write [0x6D, 0xC7, 0x4C, 0x65],
       .write [0x68, 0xC4, 0xB0, 0xFF],
       .write [0xF0, 0xA5, 0xA5],
       .compression_mode 0x1,
       .pps_long_write PPS_SETTING,
       .write [0x53, 0x20],
       .write [0x29]] ∧
    (shoreline_enable sample_kernel (sample_panel_60_fail 8)).2 = .ok () := by
  decide

/-- C11 (amended): a failed write neither stops `shoreline_enable` nor is
reported by it.  Without a current mode the function returns `-EINVAL` and
issues nothing; this is its only error.  With a current mode, for every
behaviour of the bus, it returns 0, sets `enabled` and extends the log by
`shoreline_enable_events`: reset, the init set as far as the sequencer sends
it, the frequency select and strobe (refresh rate 60 or 120), the calibration
reapply, the LHBM location set as far as the sequencer sends it, compression
mode, the PPS block, the control word, and display on or the low-power path.
What the sequencer sends of a set (`cmd_set_sent`) is an initial part of the
set in which every write but the last was accepted, and it is the whole set
unless its last entry is a write that failed: only the rest of a command set
after a failed write of that set is left out. -/
theorem enable_on_any_bus (k : Kernel) (ctx : exynos_panel) :
    shoreline_enable k ctx =
        (match ctx.current_mode with
         | none => (ctx, .error .EINVAL)
         | some pmode =>
           ({ ctx with
               enabled := true,
               log := ctx.log ++ shoreline_enable_events k ctx pmode },
            .ok ())) ∧
      (∀ (dsi : Nat → dsi_reply) (n : Nat) (cs : List exynos_dsi_cmd),
        (∃ t, cmd_set_sent dsi n cs ++ t = cmd_set_events cs) ∧
        (∀ i d, (cmd_set_sent dsi n cs)[i]? = some (.write d) →
          i + 1 < (cmd_set_sent dsi n cs).length → dsi (n + i) ≠ .io_error) ∧
        (cmd_set_sent dsi n cs = cmd_set_events cs ∨
          ∃ d, (cmd_set_sent dsi n cs).getLast? = some (.write d) ∧
            dsi (n + ((cmd_set_sent dsi n cs).length - 1)) = .io_error)) := by
  refine ⟨?_, fun dsi n cs => ⟨cmd_set_sent_initial dsi cs n,
    fun i d => cmd_set_sent_earlier_accepted dsi cs n i d, cmd_set_sent_cut dsi cs n⟩⟩
  obtain h | ⟨pmode, h⟩ : ctx.current_mode = none ∨ ∃ p, ctx.current_mode = some p := by
    cases ctx.current_mode <;> simp
  · unfold shoreline_enable
    simp only [h]
  · rw [enable_eq_events k ctx pmode h]
    simp only [h]

/-- Sibling paths of C12: on a context whose calibration buffers hold 6 bytes,
for every behaviour of the bus, the unlock writes `0xF0 0x5A 0x5A` and the lock
writes `0xF0 0xA5 0xA5` that an operation issues alternate strictly, starting
with an unlock and ending with a lock (`key_scan false _ = some false`), for
`shoreline_lhbm_gamma_read`, `shoreline_lhbm_gamma_write`, `shoreline_update_te2`
(a current mode being set), `shoreline_set_nolp_mode` (the refresh rate not
being 0), `shoreline_set_hbm_mode` and `shoreline_set_local_hbm_mode`: these
bracket with write statements that go on after a failed write.
`shoreline_enable` with a current mode closes its brackets exactly when the bus
accepts the first four writes of the LHBM location set (a failure of the fifth,
the lock write itself, leaves the sequence alternating); without a current
mode it issues nothing. -/
theorem protected_brackets (k : Kernel) (ctx : exynos_panel) (pmode : exynos_panel_mode)
    (mode : exynos_hbm_mode) (local_hbm_en : Bool)
    (hhs : ctx.hs_cmd.length = LHBM_GAMMA_CMD_SIZE)
    (hns : ctx.ns_cmd.length = LHBM_GAMMA_CMD_SIZE) :
    key_scan false (issued ctx (shoreline_lhbm_gamma_read ctx)) = some false ∧
    key_scan false (issued ctx (shoreline_lhbm_gamma_write ctx)) = some false ∧
    (ctx.current_mode ≠ none →
      ∃ r, shoreline_update_te2 k ctx = some r ∧
        key_scan false (issued ctx r) = some false) ∧
    (k.drm_mode_vrefresh pmode.mode ≠ 0 →
      ∃ r, shoreline_set_nolp_mode k ctx pmode = some r ∧
        key_scan false (issued ctx r) = some false) ∧
    key_scan false (issued ctx (shoreline_set_hbm_mode k ctx mode)) = some false ∧
    key_scan false (issued ctx (shoreline_set_local_hbm_mode k ctx local_hbm_en)) =
      some false ∧
    (ctx.current_mode = some pmode →
      (key_scan false (issued ctx (shoreline_enable k ctx).1) = some false ↔
        ∀ j, j < 4 →
          ctx.dsi ((enable_before_location k ctx pmode).log.length + j) ≠ .io_error)) ∧
    (ctx.current_mode = none → issued ctx (shoreline_enable k ctx).1 = []) := by
  refine ⟨brackets_gamma_read ctx, brackets_gamma_write ctx hhs hns,
    brackets_update_te2 k ctx, brackets_set_nolp_mode k ctx pmode,
    brackets_set_hbm_mode k ctx mode, brackets_set_local_hbm_mode k ctx local_hbm_en,
    fun hmode => brackets_enable_bus k ctx pmode hmode hhs hns, ?_⟩
  intro hnone
  unfold shoreline_enable
  rw [hnone]
  exact issued_self ctx

theorem protected_brackets_witness :
    sample_panel_60_enabled.hs_cmd.length = LHBM_GAMMA_CMD_SIZE ∧
    sample_panel_60_enabled.ns_cmd.length = LHBM_GAMMA_CMD_SIZE ∧
    sample_panel_60_enabled.enabled = true ∧
    (∃ r, shoreline_update_te2 sample_kernel sample_panel_60_enabled = some r ∧
      key_scan false (issued sample_panel_60_enabled r) = some false) ∧
    (∃ r, shoreline_set_nolp_mode sample_kernel sample_panel_60_enabled shoreline_mode_60 =
        some r ∧
      key_scan false (issued sample_panel_60_enabled r) = some false) ∧
    (shoreline_set_nolp_mode sample_kernel sample_panel_60_enabled shoreline_mode_60).map
        (issued sample_panel_60_enabled) =
      some [.write [0x28], .write [0xF0, 0x5A, 0x5A], .write [0x53, 0x20],
        .write [0xF0, 0xA5, 0xA5], .write [0x60, 0x08, 0x00], .write [0xF7, 0x0F],
        .usleep_range 17000 17010, .write [0x29]] ∧
    (sample_panel_60_fail 14).dsi 14 = .io_error ∧
    (issued (sample_panel_60_fail 14)
        (shoreline_enable sample_kernel (sample_panel_60_fail 14)).1)[14]? =
      some (.write [0xF0, 0xA5, 0xA5]) ∧
    key_scan false
      (issued (sample_panel_60_fail 14)
        (shoreline_enable sample_kernel (sample_panel_60_fail 14)).1) = some false :=
  have h := protected_brackets sample_kernel sample_panel_60_enabled shoreline_mode_60
    .HBM_ON_IRC_OFF true rfl rfl
  have h14 := protected_brackets sample_kernel (sample_panel_60_fail 14) shoreline_mode_60
    .HBM_ON_IRC_OFF true rfl rfl
  ⟨rfl, rfl, rfl, h.2.2.1 (by decide), h.2.2.2.1 (by decide), by decide, by decide,
    by decide,
    (h14.2.2.2.2.2.2.1 rfl).mpr (by intro j hj; interval_cases j <;> decide)⟩

end Shoreline
